import Mathlib

set_option maxRecDepth 8000

/-!
Verification development for the somnisoft/cron daemon (`src/crond.c`,
`src/crond.h`, `src/cron.c`).

The crontab parser and matcher are embedded shallowly:

* A crontab line (the buffer returned by `getline`, newline already
  stripped) is a `List Char`; the C string's NUL terminator is modelled by
  `charAt` returning `NUL` past the end of the list.
* The C code indexes the line with `(line, *line_idx)` and only ever reads
  at positions `≥ *line_idx` (except for the one-character look-behind in
  `crond_crontab_parse_command`, which is modelled explicitly).  Each
  parsing function therefore works on the suffix `line.drop line_idx` and
  returns the number of characters it consumed.
* The five per-job `bool` arrays declared in `struct crond_job`
  (`minute[60]`, `hour[24]`, `day[31]`, `month[12]`, `weekday[7]`, then
  `pad[2]`) are laid out contiguously.  `crond_parse_field_int` and the
  preset branches of `crond_crontab_parse_line` index one element past an
  array's end, and `crond_job_should_run` indexes `month[tm_mon - 1]`
  which is `month[-1]` in January, so the arrays are modelled as one flat
  region: a write of `true` at index `i` of the array starting at flat
  offset `base` is recorded as membership of `base + i` in a `Finset ℤ`.
  The flat offsets are `minute = 0`, `hour = 60`, `day = 84`,
  `month = 115`, `weekday = 127` (and the two pad bytes at `134`, `135`).
  `memset(&job, 0, sizeof(job))` makes every bit start out `false`, so a
  flat position reads `true` exactly when some `crond_set_field_range`
  call covered it.
* `size_t` arithmetic wraps modulo `2 ^ 64`; the only subtraction the
  parser performs is `value - offset` with `value ≤ 99` and
  `offset ∈ {0, 1}`, modelled by `subSize`.
-/

/-- The NUL terminator of a C string. -/
def NUL : Char := Char.ofNat 0

/-- Read `line[i]` from a NUL-terminated C string: positions past the end
of the buffer read the terminator. -/
def charAt (line : List Char) (i : Nat) : Char := line.getD i NUL

/-- C `isblank` in the POSIX locale: space or horizontal tab. -/
def isblank (c : Char) : Bool := c == ' ' || c == '\t'

/-- C `isdigit` in the POSIX locale. -/
def isdigit (c : Char) : Bool := decide ('0' ≤ c ∧ c ≤ '9')

/-- `SIZE_MAX` on the modelled LP64 platform. -/
def SIZE_MAX : Nat := 2 ^ 64 - 1

/-- `size_t` subtraction `a - b` with unsigned wrap-around
(for `a, b < 2 ^ 64`). -/
def subSize (a b : Nat) : Nat := if b ≤ a then a - b else 2 ^ 64 - (b - a)

/-- Flat offset of `crond_job.minute` inside the job's bit-set region. -/
def minuteBase : ℤ := 0

/-- Flat offset of `crond_job.hour` (after `minute[60]`). -/
def hourBase : ℤ := 60

/-- Flat offset of `crond_job.day` (after `hour[24]`). -/
def dayBase : ℤ := 84

/-- Flat offset of `crond_job.month` (after `day[31]`). -/
def monthBase : ℤ := 115

/-- Flat offset of `crond_job.weekday` (after `month[12]`). -/
def weekdayBase : ℤ := 127

/-- `crond_crontab_parse_blank` (crond.c:215-224): number of leading
blank characters of the suffix.  The C loop stops at the first non-blank
character; `isblank NUL = false`, so it never runs past the terminator. -/
def blanksCount : List Char → Nat
  | [] => 0
  | c :: r => if isblank c then blanksCount r + 1 else 0

/-- `crond_strtoul_field` (crond.c:234-246): value of a one- or
two-digit buffer.  Callers guarantee one or two digit characters. -/
def crond_strtoul_field : List Char → Nat
  | [c] => c.toNat - 48
  | [c1, c2] => 10 * (c1.toNat - 48) + (c2.toNat - 48)
  | _ => 0

/-- The digit-reading loop of `crond_parse_field_int`
(crond.c:305-308 and 315-318): reads up to two leading digit characters
of the suffix, returning the characters read and how many. -/
def readDigits2 (s : List Char) : List Char × Nat :=
  if isdigit (charAt s 0) then
    if isdigit (charAt s 1) then ([charAt s 0, charAt s 1], 2)
    else ([charAt s 0], 1)
  else ([], 0)

/-- `crond_set_field_range` (crond.c:255-264): the inclusive loop
`for(i = start; i <= end; i++) field[i] = true;` writes the flat
positions `base + start .. base + end` of the bit-set region, where
`base` is the flat offset of the field pointer passed in. -/
def crond_set_field_range (base : ℤ) (start e : Nat) : Finset ℤ :=
  Finset.Icc (base + start) (base + e)

/-- Lines 328-345 of `crond_parse_field_int`: given the parsed values
`d1` and `d2` (with `d2 = SIZE_MAX` when no `-` range was present),
either reject (`d1` at or past the cardinality, C sets `rc = -1`) or add
the written range to the accumulated writes.  If `d1 > d2` the endpoints
are swapped; the upper endpoint is then clamped to `flen` (not
`flen - 1`). -/
def crond_field_fill (base : ℤ) (flen d1 d2 : Nat) (acc : Finset ℤ) :
    Option (Finset ℤ) :=
  if flen ≤ d1 then none
  else if d2 = SIZE_MAX then some (acc ∪ crond_set_field_range base d1 d1)
  else
    let lo := if d2 < d1 then d2 else d1
    let hi0 := if d2 < d1 then d1 else d2
    let hi := if flen ≤ hi0 then flen else hi0
    some (acc ∪ crond_set_field_range base lo hi)

/-- The `do { ... } while(has_comma)` loop of `crond_parse_field_int`
(crond.c:301-350), one clause (`n` or `n-m`) per iteration.  Returns the
accumulated writes and the number of characters consumed, or `none` when
the C code would end with `rc = -1` (when `rc` is already `-1` the C loop
may keep running and even fill further ranges, but the caller
`crond_crontab_parse_line` discards the whole job on failure, so only the
success result is observable).  `fuel` only bounds the recursion; every
iteration consumes at least one character, so the top-level fuel
`s.length + 1` is never exhausted. -/
def crond_field_items : Nat → List Char → ℤ → Nat → Nat → Finset ℤ →
    Option (Finset ℤ × Nat)
  | 0, _, _, _, _, _ => none
  | fuel + 1, s, base, flen, off, acc =>
    let p1 := readDigits2 s
    if p1.1 = [] then none
    else
      let d1 := subSize (crond_strtoul_field p1.1) off
      let s1 := s.drop p1.2
      if charAt s1 0 = '-' then
        let p2 := readDigits2 (s1.drop 1)
        if p2.1 = [] then none
        else
          match crond_field_fill base flen d1
              (subSize (crond_strtoul_field p2.1) off) acc with
          | none => none
          | some acc2 =>
            let rest := (s1.drop 1).drop p2.2
            let used := p1.2 + 1 + p2.2
            if charAt rest 0 = ',' then
              match crond_field_items fuel (rest.drop 1) base flen off acc2 with
              | none => none
              | some (w, n) => some (w, used + 1 + n)
            else some (acc2, used)
      else
        match crond_field_fill base flen d1 SIZE_MAX acc with
        | none => none
        | some acc2 =>
          if charAt s1 0 = ',' then
            match crond_field_items fuel (s1.drop 1) base flen off acc2 with
            | none => none
            | some (w, n) => some (w, p1.2 + 1 + n)
          else some (acc2, p1.2)

/-- `crond_parse_field_int` (crond.c:280-356) on the suffix
`line.drop line_idx`.  Returns the flat positions written into the job's
bit-set region together with the number of characters consumed
(including the mandatory trailing blanks), or `none` for `rc = -1`. -/
def crond_parse_field_int (s : List Char) (base : ℤ) (flen off : Nat) :
    Option (Finset ℤ × Nat) :=
  if charAt s 0 = '*' then
    let nb := blanksCount (s.drop 1)
    if nb = 0 then none
    else some (crond_set_field_range base 0 flen, 1 + nb)
  else
    match crond_field_items (s.length + 1) s base flen off ∅ with
    | none => none
    | some (w, n) =>
      let nb := blanksCount (s.drop n)
      if nb = 0 then none else some (w, n + nb)

/-- The split scan of `crond_crontab_parse_command` (crond.c:379-384):
`for(i = line_idx; line[i]; i++) if(line[i] == '%' && i > 0 && line[i-1] != '\x5c') break;`
run over the suffix.  `prev` is the character at the position just before
the current one (`line[i - 1]`), `ipos` records `i > 0`; for every
position after the first, `i > 0` holds and `prev` is the previous suffix
character.  Returns the offset of the split within the suffix, or `none`
when the loop ran to the terminator. -/
def crond_split_find : Char → Bool → List Char → Option Nat
  | _, _, [] => none
  | prev, ipos, c :: r =>
    if c = NUL then none
    else if c = '%' ∧ ipos = true ∧ prev ≠ '\\' then some 0
    else
      match crond_split_find c true r with
      | none => none
      | some k => some (k + 1)

/-- The in-place rewrite loop of `crond_crontab_parse_command`
(crond.c:398-408) as a function of the NUL-free payload text: a
backslash followed by a further byte is dropped and that byte copied
verbatim; a remaining `%` becomes a newline; every other byte is copied.
(The C loop compacts the buffer in place with `i ≤ i_fwd`, reading only
at `i_fwd` and `i_fwd + 1`, so it computes exactly this function.) -/
def crond_stdin_transform : List Char → List Char
  | [] => []
  | '\\' :: c :: r => c :: crond_stdin_transform r
  | '%' :: r => '\n' :: crond_stdin_transform r
  | c :: r => c :: crond_stdin_transform r

/-- `crond_crontab_parse_command` (crond.c:367-417) with allocation
assumed to succeed: returns the command string and, when an unescaped
`%` was found, the stored stdin payload — the transformed bytes after
the split with the final newline appended (the buffer holds
`stdin_lines_len = i + 1` meaningful bytes, `job->stdin_lines[i]` having
been set to a newline). -/
def crond_crontab_parse_command (line : List Char) (li : Nat) :
    List Char × Option (List Char) :=
  let s := line.drop li
  match crond_split_find (charAt line (li - 1)) (decide (0 < li)) s with
  | none => (s.takeWhile (fun c => !(c == NUL)), none)
  | some k =>
    (s.take k,
     some (crond_stdin_transform
            ((s.drop (k + 1)).takeWhile (fun c => !(c == NUL))) ++ ['\n']))

/-- A parsed crontab job (`struct crond_job`, crond.h:51-96): the shell
command, the stored stdin payload (`stdin_lines` of length
`stdin_lines_len`; `none` models the NULL pointer left by `memset`), and
the flat positions of the bit-set region that were written `true`. -/
structure CrondJob where
  command : List Char
  stdin_lines : Option (List Char)
  writes : Finset ℤ
deriving DecidableEq

/-- Writes of the `@yearly` / `@annually` branch (crond.c:495-499):
`0 0 1 1 *`, with `weekday` filled by
`crond_set_field_range(job.weekday, 0, sizeof(job.weekday))`. -/
def crond_preset_yearly : Finset ℤ :=
  crond_set_field_range minuteBase 0 0 ∪ crond_set_field_range hourBase 0 0 ∪
    crond_set_field_range dayBase 0 0 ∪ crond_set_field_range monthBase 0 0 ∪
    crond_set_field_range weekdayBase 0 7

/-- Writes of the `@monthly` branch (crond.c:509-513): `0 0 1 * *`. -/
def crond_preset_monthly : Finset ℤ :=
  crond_set_field_range minuteBase 0 0 ∪ crond_set_field_range hourBase 0 0 ∪
    crond_set_field_range dayBase 0 0 ∪ crond_set_field_range monthBase 0 12 ∪
    crond_set_field_range weekdayBase 0 7

/-- Writes of the `@weekly` branch (crond.c:518-522): `0 0 * * 0`. -/
def crond_preset_weekly : Finset ℤ :=
  crond_set_field_range minuteBase 0 0 ∪ crond_set_field_range hourBase 0 0 ∪
    crond_set_field_range dayBase 0 31 ∪ crond_set_field_range monthBase 0 12 ∪
    crond_set_field_range weekdayBase 0 0

/-- Writes of the `@daily` / `@midnight` branch (crond.c:528-532):
`0 0 * * *`. -/
def crond_preset_daily : Finset ℤ :=
  crond_set_field_range minuteBase 0 0 ∪ crond_set_field_range hourBase 0 0 ∪
    crond_set_field_range dayBase 0 31 ∪ crond_set_field_range monthBase 0 12 ∪
    crond_set_field_range weekdayBase 0 7

/-- Writes of the `@hourly` branch (crond.c:542-546): `0 * * * *`. -/
def crond_preset_hourly : Finset ℤ :=
  crond_set_field_range minuteBase 0 0 ∪ crond_set_field_range hourBase 0 24 ∪
    crond_set_field_range dayBase 0 31 ∪ crond_set_field_range monthBase 0 12 ∪
    crond_set_field_range weekdayBase 0 7

/-- String literal as a character list. -/
def strL (s : String) : List Char := s.data

/-- The `@`-token matching of `crond_crontab_parse_line`
(crond.c:492-552): `strncmp` prefix comparison against the seven preset
tokens, first match wins; returns the bit-set writes and the matched
token's length (the amount added to the line index). -/
def crond_preset_match (s : List Char) : Option (Finset ℤ × Nat) :=
  if (strL "yearly").isPrefixOf s then some (crond_preset_yearly, 6)
  else if (strL "annually").isPrefixOf s then some (crond_preset_yearly, 8)
  else if (strL "monthly").isPrefixOf s then some (crond_preset_monthly, 7)
  else if (strL "weekly").isPrefixOf s then some (crond_preset_weekly, 6)
  else if (strL "daily").isPrefixOf s then some (crond_preset_daily, 5)
  else if (strL "midnight").isPrefixOf s then some (crond_preset_daily, 8)
  else if (strL "hourly").isPrefixOf s then some (crond_preset_hourly, 6)
  else none

/-- `crond_crontab_parse_line` (crond.c:455-571), job-producing part:
skip leading blanks; an empty line or `#` comment yields nothing; an `@`
line takes the preset path; otherwise the five fields are parsed in
sequence (minute, hour, day, month, weekday with offsets 0 0 1 1 0),
each one rejecting the whole line on failure; finally the command
section is parsed after any further blanks.  Returns the job that would
be handed to `crond_job_append`, or `none` when the line produces no
job. -/
def crond_crontab_parse_line (line : List Char) : Option CrondJob :=
  let i0 := blanksCount line
  let c0 := charAt line i0
  if c0 = NUL ∨ c0 = '#' then none
  else if c0 = '@' then
    match crond_preset_match (line.drop (i0 + 1)) with
    | none => none
    | some (w, toklen) =>
      let i1 := i0 + 1 + toklen
      let i2 := i1 + blanksCount (line.drop i1)
      let cs := crond_crontab_parse_command line i2
      some ⟨cs.1, cs.2, w⟩
  else
    match crond_parse_field_int (line.drop i0) minuteBase 60 0 with
    | none => none
    | some (w1, n1) =>
      match crond_parse_field_int (line.drop (i0 + n1)) hourBase 24 0 with
      | none => none
      | some (w2, n2) =>
        match crond_parse_field_int (line.drop (i0 + n1 + n2)) dayBase 31 1 with
        | none => none
        | some (w3, n3) =>
          match crond_parse_field_int (line.drop (i0 + n1 + n2 + n3))
              monthBase 12 1 with
          | none => none
          | some (w4, n4) =>
            match crond_parse_field_int (line.drop (i0 + n1 + n2 + n3 + n4))
                weekdayBase 7 0 with
            | none => none
            | some (w5, n5) =>
              let i5 := i0 + n1 + n2 + n3 + n4 + n5
              let i6 := i5 + blanksCount (line.drop i5)
              let cs := crond_crontab_parse_command line i6
              some ⟨cs.1, cs.2, w1 ∪ w2 ∪ w3 ∪ w4 ∪ w5⟩

/-- The five broken-down-time fields read by `crond_job_should_run`
(`struct tm` has C `int` fields, hence `ℤ`). -/
structure CronTm where
  tm_min : ℤ
  tm_hour : ℤ
  tm_mday : ℤ
  tm_mon : ℤ
  tm_wday : ℤ
deriving DecidableEq

/-- Flat position read by `job->minute[crond->tm->tm_min]`. -/
def crond_minute_index (tm : CronTm) : ℤ := minuteBase + tm.tm_min

/-- Flat position read by `job->hour[crond->tm->tm_hour]`. -/
def crond_hour_index (tm : CronTm) : ℤ := hourBase + tm.tm_hour

/-- Flat position read by `job->day[crond->tm->tm_mday - 1]`. -/
def crond_day_index (tm : CronTm) : ℤ := dayBase + (tm.tm_mday - 1)

/-- Flat position read by `job->month[crond->tm->tm_mon - 1]`. -/
def crond_month_index (tm : CronTm) : ℤ := monthBase + (tm.tm_mon - 1)

/-- Flat position read by `job->weekday[crond->tm->tm_wday]`. -/
def crond_weekday_index (tm : CronTm) : ℤ := weekdayBase + tm.tm_wday

/-- `crond_job_should_run` (crond.c:619-635): the conjunction of the
five bit-set lookups, each one reading the flat position its index
expression denotes under the declared struct layout. -/
def crond_job_should_run (job : CrondJob) (tm : CronTm) : Bool :=
  decide (crond_weekday_index tm ∈ job.writes) &&
    decide (crond_month_index tm ∈ job.writes) &&
    decide (crond_day_index tm ∈ job.writes) &&
    decide (crond_hour_index tm ∈ job.writes) &&
    decide (crond_minute_index tm ∈ job.writes)

/-- `si_mul_size_t` (cron.c:37-56): `size_t` multiplication returning
the wrapped product and the wrap indicator
`b != 0 && a > SIZE_MAX / b`. -/
def si_mul_size_t (a b : Nat) : Nat × Bool :=
  ((a * b) % 2 ^ 64, decide (b ≠ 0 ∧ SIZE_MAX / b < a))

/-- `sizeof(struct crond_job)` under the declared layout (crond.h:51-96):
three 8-byte members (`command`, `stdin_lines`, `stdin_lines_len`)
followed by `60 + 24 + 31 + 12 + 7 + 2 = 136` `bool` bytes. -/
def sizeof_crond_job : Nat := 160

/-- The slice of `struct crond` that `crond_job_append` touches:
the job store (`job_list`, `num_jobs`) and the exit status code set by
`crond_errx_noexit`. -/
structure CrondStore where
  job_list : List CrondJob
  num_jobs : Nat
  status_code : Nat
deriving DecidableEq

/-- `crond_job_append` (crond.c:427-447): grow the store by one via
`crond_reallocarray(job_list, num_jobs + 1, sizeof(*job_list))`
(crond.c:50-65), which reports failure when `si_mul_size_t` signals wrap
or when `realloc` itself fails (`realloc_fails`, an environment input).
On failure `crond_errx_noexit` sets the failure status and the store is
untouched; on success the job is copied into the new slot and `num_jobs`
incremented. -/
def crond_job_append (st : CrondStore) (job : CrondJob)
    (realloc_fails : Bool) : Bool × CrondStore :=
  let nmemb := (st.num_jobs + 1) % 2 ^ 64
  if (si_mul_size_t nmemb sizeof_crond_job).2 = true ∨ realloc_fails = true then
    (false, { st with status_code := 1 })
  else
    (true, { st with job_list := st.job_list ++ [job],
                     num_jobs := (st.num_jobs + 1) % 2 ^ 64 })

/-- The tail of `crond_crontab_parse_line` (crond.c:563-569): a parsed
job is handed to `crond_job_append`; if appending fails the job's
buffers are freed and the store keeps its previous contents. -/
def crond_crontab_parse_line_append (st : CrondStore) (line : List Char)
    (realloc_fails : Bool) : CrondStore :=
  match crond_crontab_parse_line line with
  | none => st
  | some job => (crond_job_append st job realloc_fails).2

/-- `struct timespec` (`st_mtim`): seconds and nanoseconds.  On the
modelled platform the struct is two 64-bit integers with no padding, so
`memcmp` over `sizeof(struct timespec)` compares exactly these two
fields. -/
structure Timespec where
  tv_sec : ℤ
  tv_nsec : ℤ
deriving DecidableEq

/-- Outcome of `cron_stat` on the crontab path as
`crond_crontab_has_changed` distinguishes it: success with the file's
modification timestamp, failure with `errno == ENOENT`, or failure with
any other `errno`. -/
inductive StatResult where
  | ok (st_mtim : Timespec)
  | enoent
  | other
deriving DecidableEq

/-- The change-detector state inside `struct crond`: the stored
`mtime_crontab` (all-zero after the `memset` in `crond_main`) and the
`status_code` set by `crond_errx_noexit`. -/
structure ChangeSt where
  mtime_crontab : Timespec
  status_code : Nat
deriving DecidableEq

/-- `crond_crontab_has_changed` (crond.c:147-176): stat the crontab; on
success report changed iff the stored timestamp differs (memcmp) and
store the new value; on `ENOENT` report changed iff the stored value is
non-zero and clear it; on any other error set the failure status and
report unchanged. -/
def crond_crontab_has_changed (st : ChangeSt) (r : StatResult) :
    Bool × ChangeSt :=
  match r with
  | .ok sb =>
    if st.mtime_crontab ≠ sb then (true, { st with mtime_crontab := sb })
    else (false, st)
  | .enoent =>
    if st.mtime_crontab.tv_sec ≠ 0 ∨ st.mtime_crontab.tv_nsec ≠ 0 then
      (true, { st with mtime_crontab := ⟨0, 0⟩ })
    else (false, st)
  | .other => (false, { st with status_code := 1 })

/-- The chunks `getline` hands to the loop of `crond_crontab_reparse`
(crond.c:591-597) for a given file content: maximal segments ending with
a newline, plus the trailing segment (without a newline) when the file
does not end in one.  Every chunk is non-empty (`read >= 1`). -/
def getlineChunks : List Char → List (List Char)
  | [] => []
  | '\n' :: r => ['\n'] :: getlineChunks r
  | c :: r =>
    match getlineChunks r with
    | [] => [[c]]
    | l :: ls => (c :: l) :: ls

/-- The line strings actually passed to `crond_crontab_parse_line` by
`crond_crontab_reparse` (crond.c:591-597): for every chunk, the byte at
index `read - 1` is unconditionally overwritten with NUL, so the parsed
string is the chunk minus its final byte. -/
def crond_reparse_lines (content : List Char) : List (List Char) :=
  (getlineChunks content).map List.dropLast

/-- The jobs produced by one `crond_crontab_reparse` pass over a file
content (allocation succeeding). -/
def crond_reparse_jobs (content : List Char) : List CrondJob :=
  (crond_reparse_lines content).filterMap crond_crontab_parse_line

/-- Decimal text of a field value `v ≤ 99`, as written in a crontab
field (one digit for `v < 10`, two digits otherwise).  Used to build the
concrete input lines that the claims quantify over. -/
def digitChar (d : Nat) : Char := Char.ofNat (48 + d)

/-- See `digitChar`. -/
def digitsOf (v : Nat) : List Char :=
  if v < 10 then [digitChar v] else [digitChar (v / 10), digitChar (v % 10)]

/-- A five-field crontab line with singleton time fields and command
`/bin/x`. -/
def singletonLine (m h d mo w : Nat) : List Char :=
  digitsOf m ++ ' ' :: (digitsOf h ++ ' ' :: (digitsOf d ++ ' ' ::
    (digitsOf mo ++ ' ' :: (digitsOf w ++ ' ' :: strL "/bin/x"))))

/-- Modelled from the spec's description of the stdin payload transform
(spec §4.2, command section): applied to the bytes after the split,
left-to-right in one pass, a backslash followed by any non-NUL byte
becomes that byte alone, and each remaining unescaped `%` becomes a
newline byte.  Stated separately from `crond_stdin_transform` (which is
translated from the source loop) so the two can be compared. -/
def spec_stdin_transform : List Char → List Char
  | [] => []
  | '\\' :: c :: r => c :: spec_stdin_transform r
  | '%' :: r => '\n' :: spec_stdin_transform r
  | c :: r => c :: spec_stdin_transform r

/-! ## Helper lemmas about the character-level primitives -/

theorem charAt_nil (i : Nat) : charAt [] i = NUL := by
  cases i <;> rfl

theorem charAt_cons_zero (c : Char) (r : List Char) : charAt (c :: r) 0 = c := rfl

theorem charAt_cons_succ (c : Char) (r : List Char) (i : Nat) :
    charAt (c :: r) (i + 1) = charAt r i := rfl

theorem charAt_append_right (l t : List Char) (i : Nat) :
    charAt (l ++ t) (l.length + i) = charAt t i := by
  induction l with
  | nil => simp [charAt]
  | cons c r ih =>
    simpa [List.length_cons, Nat.succ_add, charAt_cons_succ] using ih

theorem drop_append_right (l t : List Char) (i : Nat) :
    (l ++ t).drop (l.length + i) = t.drop i := by
  induction l with
  | nil => simp
  | cons c r ih => simp [List.length_cons, Nat.succ_add, ih]

theorem drop_append_len (l t : List Char) : (l ++ t).drop l.length = t := by
  simp

theorem blanksCount_cons_blank (c : Char) (r : List Char)
    (h : isblank c = true) : blanksCount (c :: r) = blanksCount r + 1 := by
  simp [blanksCount, h]

theorem blanksCount_cons_nonblank (c : Char) (r : List Char)
    (h : isblank c = false) : blanksCount (c :: r) = 0 := by
  simp [blanksCount, h]

theorem blanksCount_drop_self (s : List Char) :
    blanksCount (s.drop (blanksCount s)) = 0 := by
  induction s with
  | nil => rfl
  | cons c r ih =>
    by_cases h : isblank c = true
    · simp [blanksCount_cons_blank c r h]
      exact ih
    · rw [blanksCount_cons_nonblank c r (by simpa using h)]
      simp [blanksCount, h]

/-! ## Digit characters and the decimal text of field values -/

theorem isdigit_ne_of_lt (c x : Char) (h : isdigit c = true)
    (hx : isdigit x = false) : c ≠ x := by
  intro he
  subst he
  rw [h] at hx
  exact absurd hx (by decide)

theorem isdigit_not_blank (c : Char) (h : isdigit c = true) :
    isblank c = false := by
  have h1 : c ≠ ' ' := isdigit_ne_of_lt c ' ' h (by decide)
  have h2 : c ≠ '\t' := isdigit_ne_of_lt c '\t' h (by decide)
  simp [isblank, h1, h2]

theorem digitChar_toNat (d : Nat) (h : d ≤ 9) :
    (digitChar d).toNat = 48 + d := by
  interval_cases d <;> decide

theorem isdigit_digitChar (d : Nat) (h : d ≤ 9) :
    isdigit (digitChar d) = true := by
  interval_cases d <;> decide

theorem digitsOf_length (v : Nat) :
    (digitsOf v).length = if v < 10 then 1 else 2 := by
  by_cases h : v < 10 <;> simp [digitsOf, h]

theorem crond_strtoul_field_digitsOf (v : Nat) (hv : v ≤ 99) :
    crond_strtoul_field (digitsOf v) = v := by
  by_cases h : v < 10
  · simp [digitsOf, h, crond_strtoul_field, digitChar_toNat v (by omega)]
  · have h10 : v / 10 ≤ 9 := by omega
    have h1 : v % 10 ≤ 9 := by omega
    simp [digitsOf, h, crond_strtoul_field, digitChar_toNat _ h10,
      digitChar_toNat _ h1]
    omega

theorem readDigits2_digitsOf (v : Nat) (hv : v ≤ 99) (rest : List Char)
    (hrest : isdigit (charAt rest 0) = false) :
    readDigits2 (digitsOf v ++ rest) = (digitsOf v, (digitsOf v).length) := by
  by_cases h : v < 10
  · have hd : isdigit (digitChar v) = true := isdigit_digitChar v (by omega)
    simp [digitsOf, h, readDigits2, charAt_cons_zero, charAt_cons_succ, hd, hrest]
  · have hd1 : isdigit (digitChar (v / 10)) = true :=
      isdigit_digitChar _ (by omega)
    have hd2 : isdigit (digitChar (v % 10)) = true :=
      isdigit_digitChar _ (by omega)
    simp [digitsOf, h, readDigits2, charAt_cons_zero, charAt_cons_succ, hd1, hd2]

theorem digitsOf_ne_nil (v : Nat) : digitsOf v ≠ [] := by
  by_cases h : v < 10 <;> simp [digitsOf, h]

theorem charAt_digitsOf_append (v : Nat) (hv : v ≤ 99) (rest : List Char) :
    isdigit (charAt (digitsOf v ++ rest) 0) = true := by
  by_cases h : v < 10
  · simpa [digitsOf, h, charAt_cons_zero] using isdigit_digitChar v (by omega)
  · simpa [digitsOf, h, charAt_cons_zero] using isdigit_digitChar (v / 10) (by omega)

theorem crond_field_items_single (fuel v off flen : Nat) (base : ℤ)
    (acc : Finset ℤ) (rest : List Char) (hv : v ≤ 99)
    (hr : isdigit (charAt rest 0) = false)
    (hdash : charAt rest 0 ≠ '-') (hcomma : charAt rest 0 ≠ ',') :
    crond_field_items (fuel + 1) (digitsOf v ++ rest) base flen off acc =
      match crond_field_fill base flen (subSize v off) SIZE_MAX acc with
      | none => none
      | some acc2 => some (acc2, (digitsOf v).length) := by
  rw [crond_field_items]
  rw [readDigits2_digitsOf v hv rest hr]
  simp [digitsOf_ne_nil v, hdash, hcomma, drop_append_len,
    crond_strtoul_field_digitsOf v hv]

theorem crond_field_items_range (fuel a b off flen : Nat) (base : ℤ)
    (acc : Finset ℤ) (rest : List Char) (ha : a ≤ 99) (hb : b ≤ 99)
    (hr : isdigit (charAt rest 0) = false) :
    crond_field_items (fuel + 1) (digitsOf a ++ '-' :: (digitsOf b ++ rest))
        base flen off acc =
      match crond_field_fill base flen (subSize a off) (subSize b off) acc with
      | none => none
      | some acc2 =>
        if charAt rest 0 = ',' then
          match crond_field_items fuel (rest.drop 1) base flen off acc2 with
          | none => none
          | some (w, n) =>
            some (w, (digitsOf a).length + 1 + (digitsOf b).length + 1 + n)
        else some (acc2, (digitsOf a).length + 1 + (digitsOf b).length) := by
  have hdash : isdigit (charAt ('-' :: (digitsOf b ++ rest)) 0) = false := by
    rw [charAt_cons_zero]
    decide
  rw [crond_field_items]
  rw [readDigits2_digitsOf a ha ('-' :: (digitsOf b ++ rest)) hdash]
  simp only [drop_append_len, charAt_cons_zero, List.drop_succ_cons,
    List.drop_zero]
  rw [readDigits2_digitsOf b hb rest hr]
  simp [digitsOf_ne_nil, drop_append_len, crond_strtoul_field_digitsOf a ha,
    crond_strtoul_field_digitsOf b hb]

theorem charAt_digitsOf_ne_star (v : Nat) (hv : v ≤ 99) (rest : List Char) :
    charAt (digitsOf v ++ rest) 0 ≠ '*' :=
  isdigit_ne_of_lt _ _ (charAt_digitsOf_append v hv rest) (by decide)

theorem crond_parse_field_int_star (rest : List Char) (base : ℤ)
    (flen off : Nat) :
    crond_parse_field_int ('*' :: ' ' :: rest) base flen off =
      some (crond_set_field_range base 0 flen, 2 + blanksCount rest) := by
  have hbc : blanksCount (' ' :: rest) = blanksCount rest + 1 :=
    blanksCount_cons_blank ' ' rest (by decide)
  have harith : 1 + (blanksCount rest + 1) = 2 + blanksCount rest := by omega
  simp [crond_parse_field_int, charAt_cons_zero, hbc, harith]

theorem crond_parse_field_int_single (v off flen : Nat) (base : ℤ)
    (rest : List Char) (hv : v ≤ 99) (hd : subSize v off < flen) :
    crond_parse_field_int (digitsOf v ++ ' ' :: rest) base flen off =
      some (crond_set_field_range base (subSize v off) (subSize v off),
            (digitsOf v).length + 1 + blanksCount rest) := by
  have hstar := charAt_digitsOf_ne_star v hv (' ' :: rest)
  have hitems := crond_field_items_single
    ((digitsOf v ++ ' ' :: rest).length) v off flen base ∅ (' ' :: rest) hv
    (by rw [charAt_cons_zero]; decide)
    (by rw [charAt_cons_zero]; decide)
    (by rw [charAt_cons_zero]; decide)
  have hfill : crond_field_fill base flen (subSize v off) SIZE_MAX ∅ =
      some (∅ ∪ crond_set_field_range base (subSize v off) (subSize v off)) := by
    simp [crond_field_fill, Nat.not_le.mpr hd]
  rw [crond_parse_field_int, if_neg hstar, hitems, hfill]
  have hbc : blanksCount (' ' :: rest) = blanksCount rest + 1 :=
    blanksCount_cons_blank ' ' rest (by decide)
  have harith : (digitsOf v).length + (blanksCount rest + 1) =
      (digitsOf v).length + 1 + blanksCount rest := by omega
  simp [drop_append_len, hbc, harith]

theorem crond_parse_field_int_range (a b off flen : Nat) (base : ℤ)
    (rest : List Char) (ha : a ≤ 99) (hb : b ≤ 99) :
    crond_parse_field_int
        (digitsOf a ++ '-' :: (digitsOf b ++ ' ' :: rest)) base flen off =
      match crond_field_fill base flen (subSize a off) (subSize b off) ∅ with
      | none => none
      | some acc2 =>
        some (acc2, (digitsOf a).length + 1 + (digitsOf b).length + 1 +
          blanksCount rest) := by
  have hstar := charAt_digitsOf_ne_star a ha ('-' :: (digitsOf b ++ ' ' :: rest))
  have hitems := crond_field_items_range
    ((digitsOf a ++ '-' :: (digitsOf b ++ ' ' :: rest)).length) a b off flen
    base ∅ (' ' :: rest) ha hb (by rw [charAt_cons_zero]; decide)
  rw [crond_parse_field_int, if_neg hstar, hitems]
  cases hf : crond_field_fill base flen (subSize a off) (subSize b off) ∅ with
  | none => rfl
  | some acc2 =>
    have hne : charAt (' ' :: rest) 0 ≠ ',' := by rw [charAt_cons_zero]; decide
    have hdrop : (digitsOf a ++ '-' :: (digitsOf b ++ ' ' :: rest)).drop
        ((digitsOf a).length + 1 + (digitsOf b).length) = ' ' :: rest := by
      have h1 : (digitsOf a).length + 1 + (digitsOf b).length =
          (digitsOf a).length + ((digitsOf b).length + 1) := by omega
      rw [h1, drop_append_right, List.drop_succ_cons, drop_append_len]
    have hbc : blanksCount (' ' :: rest) = blanksCount rest + 1 :=
      blanksCount_cons_blank ' ' rest (by decide)
    have harith : (digitsOf a).length + 1 + (digitsOf b).length +
        (blanksCount rest + 1) =
        (digitsOf a).length + 1 + (digitsOf b).length + 1 + blanksCount rest := by
      omega
    simp [hf, hne, hdrop, hbc, harith]

/-! ## C1: range upper endpoints at or above the cardinality -/

theorem drop_digits_range_add (a b : Nat) (rest : List Char) (k : Nat) :
    (digitsOf a ++ '-' :: (digitsOf b ++ rest)).drop
      ((digitsOf a).length + 1 + (digitsOf b).length + k) = rest.drop k := by
  have hassoc : digitsOf a ++ '-' :: (digitsOf b ++ rest) =
      (digitsOf a ++ '-' :: digitsOf b) ++ rest := by
    simp
  have hlen : (digitsOf a).length + 1 + (digitsOf b).length + k =
      (digitsOf a ++ '-' :: digitsOf b).length + k := by
    simp
    omega
  rw [hassoc, hlen, drop_append_right]

theorem crond_field_fill_clamp (base : ℤ) (flen d1 d2 : Nat)
    (h1 : d1 < flen) (h2 : flen ≤ d2) (hmax : d2 ≠ SIZE_MAX) :
    crond_field_fill base flen d1 d2 ∅ =
      some (crond_set_field_range base d1 flen) := by
  have hswap : ¬ d2 < d1 := by omega
  simp [crond_field_fill, Nat.not_le.mpr h1, hmax, hswap, h2]

/-- C1 (amended).  For a range token whose first endpoint, after offset
subtraction, is below the field's cardinality and whose second endpoint,
after offset subtraction, is at or above the cardinality (and is not the
`SIZE_MAX` sentinel produced by the `0 - 1` underflow), the parser
accepts the field, clamps the upper endpoint to the cardinality `flen`
(not `flen - 1`), and the inclusive fill loop of `crond_set_field_range`
writes the bit-set index equal to the cardinality — flat position
`base + flen`, one element past the end of the array at `base`. -/
theorem c1_range_clamp_writes_past_end (a b off flen : Nat) (base : ℤ)
    (rest : List Char) (ha : a ≤ 99) (hb : b ≤ 99)
    (h1 : subSize a off < flen) (h2 : flen ≤ subSize b off)
    (hmax : subSize b off ≠ SIZE_MAX) :
    crond_parse_field_int
        (digitsOf a ++ '-' :: (digitsOf b ++ ' ' :: rest)) base flen off =
      some (crond_set_field_range base (subSize a off) flen,
        (digitsOf a).length + 1 + (digitsOf b).length + 1 + blanksCount rest) ∧
    (base + flen) ∈ crond_set_field_range base (subSize a off) flen := by
  constructor
  · rw [crond_parse_field_int_range a b off flen base rest ha hb]
    rw [crond_field_fill_clamp base flen _ _ h1 h2 hmax]
  · simp only [crond_set_field_range, Finset.mem_Icc]
    constructor
    · omega
    · omega

/-- Closed witness for `c1_range_clamp_writes_past_end`. -/
theorem c1_range_clamp_writes_past_end_witness :
    crond_parse_field_int
        (digitsOf 5 ++ '-' :: (digitsOf 99 ++ ' ' :: strL "x"))
        minuteBase 60 0 =
      some (crond_set_field_range minuteBase (subSize 5 0) 60,
        (digitsOf 5).length + 1 + (digitsOf 99).length + 1 +
          blanksCount (strL "x")) ∧
    (minuteBase + 60) ∈ crond_set_field_range minuteBase (subSize 5 0) 60 :=
  c1_range_clamp_writes_past_end 5 99 0 60 minuteBase (strL "x")
    (by decide) (by decide) (by decide) (by decide) (by decide)

/-- Counterexample to C1 as stated: the five-field line
`99-5 0 1 1 0 /bin/x` contains a range whose upper endpoint after offset
subtraction and swapping (99) is at or above the minute field's
cardinality 60, yet the parser does not clamp and fill — it rejects the
line outright, because `crond_parse_field_int` tests `d1 >= field_len`
before the swap.  No job and no bit-set write at the cardinality index
result. -/
theorem c1_counterexample :
    crond_crontab_parse_line (strL "99-5 0 1 1 0 /bin/x") = none ∧
    crond_parse_field_int (strL "99-5 ") minuteBase 60 0 = none := by
  constructor
  · decide
  · decide

/-! ## C2: symmetry of ranges under endpoint swap -/

theorem crond_parse_field_int_range_eval (a b off flen : Nat) (base : ℤ)
    (rest : List Char) (ha : a ≤ 99) (hb : b ≤ 99)
    (hr : isdigit (charAt rest 0) = false) :
    crond_parse_field_int (digitsOf a ++ '-' :: (digitsOf b ++ rest))
        base flen off =
      match crond_field_fill base flen (subSize a off) (subSize b off) ∅ with
      | none => none
      | some acc2 =>
        if charAt rest 0 = ',' then
          match crond_field_items
              ((digitsOf a ++ '-' :: (digitsOf b ++ rest)).length)
              (rest.drop 1) base flen off acc2 with
          | none => none
          | some (w, n) =>
            if blanksCount (rest.drop (1 + n)) = 0 then none
            else some (w, (digitsOf a).length + 1 + (digitsOf b).length + 1 + n +
              blanksCount (rest.drop (1 + n)))
        else
          if blanksCount rest = 0 then none
          else some (acc2,
            (digitsOf a).length + 1 + (digitsOf b).length + blanksCount rest) := by
  have hstar := charAt_digitsOf_ne_star a ha ('-' :: (digitsOf b ++ rest))
  rw [crond_parse_field_int, if_neg hstar]
  rw [crond_field_items_range
    ((digitsOf a ++ '-' :: (digitsOf b ++ rest)).length) a b off flen base ∅
    rest ha hb hr]
  cases hf : crond_field_fill base flen (subSize a off) (subSize b off) ∅ with
  | none => rfl
  | some acc2 =>
    by_cases hc : charAt rest 0 = ','
    · simp only [hc, if_pos]
      cases hrec : crond_field_items
          ((digitsOf a ++ '-' :: (digitsOf b ++ rest)).length)
          (rest.drop 1) base flen off acc2 with
      | none => rfl
      | some p =>
        obtain ⟨w, n⟩ := p
        have hdrop : (digitsOf a ++ '-' :: (digitsOf b ++ rest)).drop
            ((digitsOf a).length + 1 + (digitsOf b).length + 1 + n) =
            rest.drop (1 + n) := by
          have h1 : (digitsOf a).length + 1 + (digitsOf b).length + 1 + n =
              (digitsOf a).length + 1 + (digitsOf b).length + (1 + n) := by omega
          rw [h1, drop_digits_range_add]
        simp [hdrop]
    · simp only [hc, if_neg, if_false]
      have hdrop : (digitsOf a ++ '-' :: (digitsOf b ++ rest)).drop
          ((digitsOf a).length + 1 + (digitsOf b).length) = rest := by
        have h := drop_digits_range_add a b rest 0
        simpa using h
      simp [hdrop]

theorem crond_field_fill_comm (base : ℤ) (flen d1 d2 : Nat)
    (acc : Finset ℤ) (h1 : d1 < flen) (h2 : d2 < flen)
    (hflen : flen ≤ SIZE_MAX) :
    crond_field_fill base flen d1 d2 acc =
      crond_field_fill base flen d2 d1 acc := by
  have hs1 : d1 ≠ SIZE_MAX := by omega
  have hs2 : d2 ≠ SIZE_MAX := by omega
  by_cases hlt : d2 < d1
  · have hlt2 : ¬ d1 < d2 := by omega
    simp [crond_field_fill, Nat.not_le.mpr h1, Nat.not_le.mpr h2, hs1, hs2,
      hlt, hlt2]
  · by_cases hlt2 : d1 < d2
    · simp [crond_field_fill, Nat.not_le.mpr h1, Nat.not_le.mpr h2, hs1, hs2,
        hlt, hlt2]
    · have he : d1 = d2 := by omega
      subst he
      rfl

/-- C2 (amended).  For a range field-text `a-b` whose two endpoints both
lie inside the field (after offset subtraction), parsing `a-b` and
parsing `b-a` produce the same result — the same bit-set, the same
consumed count, acceptance together — in any of the five time fields and
whatever follows the range.  (When an endpoint falls outside the field
the two orders genuinely differ; see `c2_counterexample`.) -/
theorem c2_range_symmetric (a b off flen : Nat) (base : ℤ)
    (rest : List Char) (ha : a ≤ 99) (hb : b ≤ 99)
    (h1 : subSize a off < flen) (h2 : subSize b off < flen)
    (hflen : flen ≤ SIZE_MAX) (hr : isdigit (charAt rest 0) = false) :
    crond_parse_field_int (digitsOf a ++ '-' :: (digitsOf b ++ rest))
        base flen off =
      crond_parse_field_int (digitsOf b ++ '-' :: (digitsOf a ++ rest))
        base flen off := by
  rw [crond_parse_field_int_range_eval a b off flen base rest ha hb hr]
  rw [crond_parse_field_int_range_eval b a off flen base rest hb ha hr]
  rw [crond_field_fill_comm base flen (subSize b off) (subSize a off) ∅ h2 h1
    hflen]
  have hlen : (digitsOf b ++ '-' :: (digitsOf a ++ rest)).length =
      (digitsOf a ++ '-' :: (digitsOf b ++ rest)).length := by
    simp
    omega
  rw [hlen]
  have harith : (digitsOf b).length + 1 + (digitsOf a).length =
      (digitsOf a).length + 1 + (digitsOf b).length := by omega
  rw [harith]

/-- Counterexample to C2 as stated: in the day-of-month field
(offset 1), the field-text `0-5` is rejected (`0 - 1` underflows to
`SIZE_MAX`, which fails the `d1` bound check) while the swapped text
`5-0` is accepted — the underflowed second endpoint equals the
`SIZE_MAX` "no range" sentinel, so the parser silently treats it as the
singleton `5` and enables only day-of-month 5 (flat position
`dayBase + 4 = 88`).  The two orders are neither accepted together nor
do they produce equal bit-sets. -/
theorem c2_counterexample :
    crond_parse_field_int (strL "0-5 x") dayBase 31 1 = none ∧
    crond_parse_field_int (strL "5-0 x") dayBase 31 1 =
      some (crond_set_field_range dayBase 4 4, 4) ∧
    crond_crontab_parse_line (strL "1 1 0-5 1 1 /bin/x") = none ∧
    crond_crontab_parse_line (strL "1 1 5-0 1 1 /bin/x") ≠ none := by
  refine ⟨by decide, by decide, by decide, by decide⟩

/-- Closed witness for `c2_range_symmetric`. -/
theorem c2_range_symmetric_witness :
    crond_parse_field_int (digitsOf 1 ++ '-' :: (digitsOf 5 ++ strL " x"))
        minuteBase 60 0 =
      crond_parse_field_int (digitsOf 5 ++ '-' :: (digitsOf 1 ++ strL " x"))
        minuteBase 60 0 :=
  c2_range_symmetric 1 5 0 60 minuteBase (strL " x") (by decide) (by decide)
    (by decide) (by decide) (by decide) (by decide)

/-! ## C9: the `*` form and full-field preset fills write one past the end -/

/-- C9.  A field given as `*` makes `crond_parse_field_int` call
`crond_set_field_range(field, 0, field_len)`, whose inclusive loop also
writes flat position `base + field_len` — one element past the end of
the array at `base`.  Under the declared layout the element past
`minute[59]` is `hour[0]` (`minuteBase + 60 = hourBase`), so even the
all-valid line `* 5 1 1 0 /bin/x` sets `hour[0]` although its hour field
is the singleton 5; the preset expansions that cover a whole field do
the same (`@hourly` fills `hour[0..24]` and thereby sets `day[0]`). -/
theorem c9_star_writes_past_end (rest : List Char) (base : ℤ)
    (flen off : Nat) :
    crond_parse_field_int ('*' :: ' ' :: rest) base flen off =
      some (crond_set_field_range base 0 flen, 2 + blanksCount rest) ∧
    (base + flen) ∈ crond_set_field_range base 0 flen ∧
    minuteBase + 60 = hourBase ∧
    (crond_crontab_parse_line (strL "* 5 1 1 0 /bin/x")).map
      (fun j => decide (hourBase ∈ j.writes)) = some true ∧
    (crond_crontab_parse_line (strL "@hourly /bin/x")).map
      (fun j => decide (dayBase ∈ j.writes)) = some true := by
  refine ⟨crond_parse_field_int_star rest base flen off, ?_, by decide,
    by decide, by decide⟩
  simp only [crond_set_field_range, Finset.mem_Icc]
  constructor
  · omega
  · omega

/-! ## C3: the stdin payload transform -/

theorem crond_split_find_first_unescaped (cmdpre payload : List Char)
    (prev : Char) (hpre : ∀ c ∈ cmdpre, c ≠ '%' ∧ c ≠ '\\' ∧ c ≠ NUL)
    (hprev : prev ≠ '\\') :
    crond_split_find prev true (cmdpre ++ '%' :: payload) =
      some cmdpre.length := by
  induction cmdpre generalizing prev with
  | nil =>
    simp [crond_split_find, hprev]
    decide
  | cons c r ih =>
    obtain ⟨hc1, hc2, hc3⟩ := hpre c (by simp)
    have hr : ∀ x ∈ r, x ≠ '%' ∧ x ≠ '\\' ∧ x ≠ NUL := by
      intro x hx
      exact hpre x (by simp [hx])
    rw [List.cons_append, crond_split_find]
    simp [hc1, hc3, ih c hr hc2]

theorem takeWhile_ne_nul_eq_self (s : List Char) (h : NUL ∉ s) :
    s.takeWhile (fun c => !(c == NUL)) = s := by
  induction s with
  | nil => rfl
  | cons c r ih =>
    simp only [List.mem_cons, not_or] at h
    obtain ⟨h1, h2⟩ := h
    have hc : (c == NUL) = false := by
      simp [Ne.symm h1]
    simp [List.takeWhile_cons, hc, ih h2]

theorem crond_stdin_transform_eq_spec (s : List Char) :
    crond_stdin_transform s = spec_stdin_transform s := by
  induction s using crond_stdin_transform.induct with
  | case1 => rfl
  | case2 c r ih =>
    show c :: crond_stdin_transform r = c :: spec_stdin_transform r
    rw [ih]
  | case3 r ih =>
    show '\n' :: crond_stdin_transform r = '\n' :: spec_stdin_transform r
    rw [ih]
  | case4 c r h1 h2 ih =>
    rw [crond_stdin_transform.eq_4 c r h1 h2, spec_stdin_transform.eq_4 c r h1 h2,
      ih]

theorem spec_stdin_transform_clean (s : List Char)
    (hp : '%' ∉ s) (hb : '\\' ∉ s) :
    spec_stdin_transform s = s := by
  induction s using spec_stdin_transform.induct with
  | case1 => rfl
  | case2 c r ih => simp at hb
  | case3 r ih => simp at hp
  | case4 c r h1 h2 ih =>
    simp only [List.mem_cons, not_or] at hp hb
    rw [spec_stdin_transform.eq_4 c r h1 h2, ih hp.2 hb.2]

/-- C3.  When the command section of a line contains an unescaped `%`
(one that is not preceded by a backslash), the bytes before it form the
command and the stored stdin payload is the bytes after it transformed
left-to-right in one pass — a backslash followed by a further byte
becomes that byte alone, each remaining unescaped `%` becomes a newline
byte — with exactly one newline byte appended; in particular a payload
text containing no `%` and no backslash is stored verbatim plus one
trailing newline. -/
theorem c3_stdin_payload (line cmdpre payload : List Char) (li : Nat)
    (hli : 0 < li)
    (hsplit : line.drop li = cmdpre ++ '%' :: payload)
    (hpre : ∀ c ∈ cmdpre, c ≠ '%' ∧ c ≠ '\\' ∧ c ≠ NUL)
    (hprev : charAt line (li - 1) ≠ '\\')
    (hnul : NUL ∉ payload) :
    (crond_crontab_parse_command line li).1 = cmdpre ∧
    (crond_crontab_parse_command line li).2 =
      some (spec_stdin_transform payload ++ ['\n']) ∧
    (('%' ∉ payload ∧ '\\' ∉ payload) →
      (crond_crontab_parse_command line li).2 = some (payload ++ ['\n'])) := by
  have hfind : crond_split_find (charAt line (li - 1)) (decide (0 < li))
      (line.drop li) = some cmdpre.length := by
    rw [hsplit, decide_eq_true hli]
    exact crond_split_find_first_unescaped cmdpre payload
      (charAt line (li - 1)) hpre hprev
  have hdrop : (line.drop li).drop (cmdpre.length + 1) = payload := by
    rw [hsplit]
    have h := drop_append_right cmdpre ('%' :: payload) 1
    simp only [List.drop_succ_cons, List.drop_zero] at h
    exact h
  have htake : (line.drop li).take cmdpre.length = cmdpre := by
    rw [hsplit]
    simp
  have hcmd : crond_crontab_parse_command line li =
      (cmdpre, some (crond_stdin_transform payload ++ ['\n'])) := by
    rw [crond_crontab_parse_command]
    rw [hfind]
    simp only [hdrop, htake, takeWhile_ne_nul_eq_self payload hnul]
  refine ⟨by rw [hcmd], ?_, ?_⟩
  · rw [hcmd, crond_stdin_transform_eq_spec]
  · intro hclean
    rw [hcmd, crond_stdin_transform_eq_spec,
      spec_stdin_transform_clean payload hclean.1 hclean.2]

/-- Closed witness for `c3_stdin_payload`. -/
theorem c3_stdin_payload_witness :
    (crond_crontab_parse_command (strL "x %a\\%b%c") 2).1 = [] ∧
    (crond_crontab_parse_command (strL "x %a\\%b%c") 2).2 =
      some (spec_stdin_transform (strL "a\\%b%c") ++ ['\n']) ∧
    (('%' ∉ strL "a\\%b%c" ∧ '\\' ∉ strL "a\\%b%c") →
      (crond_crontab_parse_command (strL "x %a\\%b%c") 2).2 =
        some (strL "a\\%b%c" ++ ['\n'])) :=
  c3_stdin_payload (strL "x %a\\%b%c") [] (strL "a\\%b%c") 2
    (by decide) (by decide) (by decide) (by decide) (by decide)

/-! ## C4: matching against singleton fields -/

theorem crond_parse_command_of_eq (line : List Char) (li : Nat) (prev : Char)
    (s : List Char) (hpos : 0 < li) (hprev : charAt line (li - 1) = prev)
    (hs : line.drop li = s) :
    crond_crontab_parse_command line li =
      match crond_split_find prev true s with
      | none => (s.takeWhile (fun c => !(c == NUL)), none)
      | some k =>
        (s.take k,
         some (crond_stdin_transform
               ((s.drop (k + 1)).takeWhile (fun c => !(c == NUL))) ++ ['\n'])) := by
  rw [crond_crontab_parse_command, hprev, hs, decide_eq_true hpos]

theorem crond_parse_line_five (line R1 R2 R3 R4 R5 : List Char)
    (w1 w2 w3 w4 w5 : Finset ℤ) (n1 n2 n3 n4 n5 : Nat)
    (hb : blanksCount line = 0)
    (hdg : isdigit (charAt line 0) = true)
    (h1 : crond_parse_field_int line minuteBase 60 0 = some (w1, n1))
    (hs1 : line.drop n1 = R1)
    (h2 : crond_parse_field_int R1 hourBase 24 0 = some (w2, n2))
    (hs2 : R1.drop n2 = R2)
    (h3 : crond_parse_field_int R2 dayBase 31 1 = some (w3, n3))
    (hs3 : R2.drop n3 = R3)
    (h4 : crond_parse_field_int R3 monthBase 12 1 = some (w4, n4))
    (hs4 : R3.drop n4 = R4)
    (h5 : crond_parse_field_int R4 weekdayBase 7 0 = some (w5, n5))
    (hs5 : R4.drop n5 = R5) :
    crond_crontab_parse_line line =
      some ⟨(crond_crontab_parse_command line
               (n1 + n2 + n3 + n4 + n5 + blanksCount R5)).1,
            (crond_crontab_parse_command line
               (n1 + n2 + n3 + n4 + n5 + blanksCount R5)).2,
            w1 ∪ w2 ∪ w3 ∪ w4 ∪ w5⟩ := by
  have hd2 : line.drop (n1 + n2) = R2 := by
    rw [← List.drop_drop n2 n1 line, hs1, hs2]
  have hd3 : line.drop (n1 + n2 + n3) = R3 := by
    rw [← List.drop_drop n3 (n1 + n2) line, hd2, hs3]
  have hd4 : line.drop (n1 + n2 + n3 + n4) = R4 := by
    rw [← List.drop_drop n4 (n1 + n2 + n3) line, hd3, hs4]
  have hd5 : line.drop (n1 + n2 + n3 + n4 + n5) = R5 := by
    rw [← List.drop_drop n5 (n1 + n2 + n3 + n4) line, hd4, hs5]
  have hnul : charAt line 0 ≠ NUL := isdigit_ne_of_lt _ _ hdg (by decide)
  have hhash : charAt line 0 ≠ '#' := isdigit_ne_of_lt _ _ hdg (by decide)
  have hat : charAt line 0 ≠ '@' := isdigit_ne_of_lt _ _ hdg (by decide)
  simp only [crond_crontab_parse_line, hb, Nat.zero_add, List.drop_zero,
    hnul, hhash, hat, or_self, if_false, if_neg, h1, hs1, hd2, hd3, hd4, hd5,
    h2, h3, h4, h5]

theorem subSize_zero (v : Nat) : subSize v 0 = v := by
  simp [subSize]

theorem subSize_one (v : Nat) (h : 1 ≤ v) : subSize v 1 = v - 1 := by
  simp [subSize, h]

theorem blanksCount_digitsOf_append (v : Nat) (hv99 : v ≤ 99)
    (rest : List Char) : blanksCount (digitsOf v ++ rest) = 0 := by
  by_cases hv : v < 10
  · simp [digitsOf, hv, blanksCount,
      isdigit_not_blank _ (isdigit_digitChar v (by omega))]
  · simp [digitsOf, hv, blanksCount,
      isdigit_not_blank _ (isdigit_digitChar (v / 10) (by omega))]

theorem digitsOf_length_pos (v : Nat) : 0 < (digitsOf v).length := by
  by_cases hv : v < 10 <;> simp [digitsOf, hv]

theorem drop_field (v : Nat) (rest : List Char) :
    (digitsOf v ++ ' ' :: rest).drop ((digitsOf v).length + 1) = rest := by
  have hgoal := drop_append_right (digitsOf v) (' ' :: rest) 1
  simp only [List.drop_succ_cons, List.drop_zero] at hgoal
  exact hgoal

theorem charAt_skip_field (v : Nat) (rest : List Char) (k : Nat) :
    charAt (digitsOf v ++ ' ' :: rest) ((digitsOf v).length + 1 + k) =
      charAt rest k := by
  have e : (digitsOf v).length + 1 + k = (digitsOf v).length + (k + 1) := by
    omega
  rw [e, charAt_append_right, charAt_cons_succ]

theorem charAt_last_blank (v : Nat) (rest : List Char) :
    charAt (digitsOf v ++ ' ' :: rest) ((digitsOf v).length) = ' ' := by
  have e : (digitsOf v).length = (digitsOf v).length + 0 := by omega
  rw [e, charAt_append_right]
  rfl

theorem crond_parse_line_singleton (m h d mo w : Nat)
    (hm : m < 60) (hh : h < 24) (hd1 : 1 ≤ d) (hd2 : d ≤ 31)
    (hmo1 : 1 ≤ mo) (hmo2 : mo ≤ 12) (hw : w < 7) :
    crond_crontab_parse_line (singletonLine m h d mo w) =
      some ⟨strL "/bin/x", none,
        crond_set_field_range minuteBase m m ∪
          crond_set_field_range hourBase h h ∪
          crond_set_field_range dayBase (d - 1) (d - 1) ∪
          crond_set_field_range monthBase (mo - 1) (mo - 1) ∪
          crond_set_field_range weekdayBase w w⟩ := by
  have hm99 : m ≤ 99 := by omega
  have hh99 : h ≤ 99 := by omega
  have hd99 : d ≤ 99 := by omega
  have hmo99 : mo ≤ 99 := by omega
  have hw99 : w ≤ 99 := by omega
  have h1 : crond_parse_field_int (singletonLine m h d mo w) minuteBase 60 0 =
      some (crond_set_field_range minuteBase m m, (digitsOf m).length + 1) := by
    rw [singletonLine, crond_parse_field_int_single m 0 60 minuteBase _ hm99
      (by rw [subSize_zero]; omega)]
    rw [blanksCount_digitsOf_append h hh99, subSize_zero]
  have hs1 : (singletonLine m h d mo w).drop ((digitsOf m).length + 1) =
      digitsOf h ++ ' ' :: (digitsOf d ++ ' ' :: (digitsOf mo ++ ' ' ::
        (digitsOf w ++ ' ' :: strL "/bin/x"))) := by
    rw [singletonLine, drop_field]
  have h2 : crond_parse_field_int (digitsOf h ++ ' ' :: (digitsOf d ++ ' ' ::
      (digitsOf mo ++ ' ' :: (digitsOf w ++ ' ' :: strL "/bin/x"))))
      hourBase 24 0 =
      some (crond_set_field_range hourBase h h, (digitsOf h).length + 1) := by
    rw [crond_parse_field_int_single h 0 24 hourBase _ hh99
      (by rw [subSize_zero]; omega)]
    rw [blanksCount_digitsOf_append d hd99, subSize_zero]
  have h3 : crond_parse_field_int (digitsOf d ++ ' ' :: (digitsOf mo ++ ' ' ::
      (digitsOf w ++ ' ' :: strL "/bin/x"))) dayBase 31 1 =
      some (crond_set_field_range dayBase (d - 1) (d - 1),
        (digitsOf d).length + 1) := by
    rw [crond_parse_field_int_single d 1 31 dayBase _ hd99
      (by rw [subSize_one d hd1]; omega)]
    rw [blanksCount_digitsOf_append mo hmo99, subSize_one d hd1]
  have h4 : crond_parse_field_int (digitsOf mo ++ ' ' ::
      (digitsOf w ++ ' ' :: strL "/bin/x")) monthBase 12 1 =
      some (crond_set_field_range monthBase (mo - 1) (mo - 1),
        (digitsOf mo).length + 1) := by
    rw [crond_parse_field_int_single mo 1 12 monthBase _ hmo99
      (by rw [subSize_one mo hmo1]; omega)]
    rw [blanksCount_digitsOf_append w hw99, subSize_one mo hmo1]
  have h5 : crond_parse_field_int (digitsOf w ++ ' ' :: strL "/bin/x")
      weekdayBase 7 0 =
      some (crond_set_field_range weekdayBase w w, (digitsOf w).length + 1) := by
    rw [crond_parse_field_int_single w 0 7 weekdayBase _ hw99
      (by rw [subSize_zero]; omega)]
    rw [subSize_zero]
    have hb : blanksCount (strL "/bin/x") = 0 := by decide
    rw [hb, Nat.add_zero]
  have hs2 : (digitsOf h ++ ' ' :: (digitsOf d ++ ' ' :: (digitsOf mo ++ ' ' ::
      (digitsOf w ++ ' ' :: strL "/bin/x")))).drop ((digitsOf h).length + 1) =
      digitsOf d ++ ' ' :: (digitsOf mo ++ ' ' ::
        (digitsOf w ++ ' ' :: strL "/bin/x")) := drop_field h _
  have hs3 : (digitsOf d ++ ' ' :: (digitsOf mo ++ ' ' ::
      (digitsOf w ++ ' ' :: strL "/bin/x"))).drop ((digitsOf d).length + 1) =
      digitsOf mo ++ ' ' :: (digitsOf w ++ ' ' :: strL "/bin/x") :=
    drop_field d _
  have hs4 : (digitsOf mo ++ ' ' ::
      (digitsOf w ++ ' ' :: strL "/bin/x")).drop ((digitsOf mo).length + 1) =
      digitsOf w ++ ' ' :: strL "/bin/x" := drop_field mo _
  have hs5 : (digitsOf w ++ ' ' :: strL "/bin/x").drop
      ((digitsOf w).length + 1) = strL "/bin/x" := drop_field w _
  have hb0 : blanksCount (singletonLine m h d mo w) = 0 := by
    rw [singletonLine]
    exact blanksCount_digitsOf_append m hm99 _
  have hdg : isdigit (charAt (singletonLine m h d mo w) 0) = true := by
    rw [singletonLine]
    exact charAt_digitsOf_append m hm99 _
  have hmain := crond_parse_line_five (singletonLine m h d mo w) _ _ _ _ _
    _ _ _ _ _ _ _ _ _ _ hb0 hdg h1 hs1 h2 hs2 h3 hs3 h4 hs4 h5 hs5
  rw [hmain]
  have hbcmd : blanksCount (strL "/bin/x") = 0 := by decide
  have hS : (digitsOf m).length + 1 + ((digitsOf h).length + 1) +
      ((digitsOf d).length + 1) + ((digitsOf mo).length + 1) +
      ((digitsOf w).length + 1) + blanksCount (strL "/bin/x") =
      (digitsOf m).length + 1 + ((digitsOf h).length + 1) +
      ((digitsOf d).length + 1) + ((digitsOf mo).length + 1) +
      ((digitsOf w).length + 1) := by
    rw [hbcmd, Nat.add_zero]
  rw [hS]
  have hpos : 0 < (digitsOf m).length + 1 + ((digitsOf h).length + 1) +
      ((digitsOf d).length + 1) + ((digitsOf mo).length + 1) +
      ((digitsOf w).length + 1) := by omega
  have hD2 : (singletonLine m h d mo w).drop
      ((digitsOf m).length + 1 + ((digitsOf h).length + 1)) =
      digitsOf d ++ ' ' :: (digitsOf mo ++ ' ' ::
        (digitsOf w ++ ' ' :: strL "/bin/x")) := by
    rw [← List.drop_drop ((digitsOf h).length + 1) ((digitsOf m).length + 1),
      hs1, hs2]
  have hD3 : (singletonLine m h d mo w).drop
      ((digitsOf m).length + 1 + ((digitsOf h).length + 1) +
       ((digitsOf d).length + 1)) =
      digitsOf mo ++ ' ' :: (digitsOf w ++ ' ' :: strL "/bin/x") := by
    rw [← List.drop_drop ((digitsOf d).length + 1)
      ((digitsOf m).length + 1 + ((digitsOf h).length + 1)), hD2, hs3]
  have hD4 : (singletonLine m h d mo w).drop
      ((digitsOf m).length + 1 + ((digitsOf h).length + 1) +
       ((digitsOf d).length + 1) + ((digitsOf mo).length + 1)) =
      digitsOf w ++ ' ' :: strL "/bin/x" := by
    rw [← List.drop_drop ((digitsOf mo).length + 1)
      ((digitsOf m).length + 1 + ((digitsOf h).length + 1) +
       ((digitsOf d).length + 1)), hD3, hs4]
  have hD5 : (singletonLine m h d mo w).drop
      ((digitsOf m).length + 1 + ((digitsOf h).length + 1) +
       ((digitsOf d).length + 1) + ((digitsOf mo).length + 1) +
       ((digitsOf w).length + 1)) = strL "/bin/x" := by
    rw [← List.drop_drop ((digitsOf w).length + 1)
      ((digitsOf m).length + 1 + ((digitsOf h).length + 1) +
       ((digitsOf d).length + 1) + ((digitsOf mo).length + 1)), hD4, hs5]
  have hprevS : charAt (singletonLine m h d mo w)
      ((digitsOf m).length + 1 + ((digitsOf h).length + 1) +
       ((digitsOf d).length + 1) + ((digitsOf mo).length + 1) +
       ((digitsOf w).length + 1) - 1) = ' ' := by
    have e : (digitsOf m).length + 1 + ((digitsOf h).length + 1) +
        ((digitsOf d).length + 1) + ((digitsOf mo).length + 1) +
        ((digitsOf w).length + 1) - 1 =
        (digitsOf m).length + 1 + ((digitsOf h).length + 1 +
          ((digitsOf d).length + 1 + ((digitsOf mo).length + 1 +
            (digitsOf w).length))) := by
      omega
    rw [e, singletonLine, charAt_skip_field, charAt_skip_field,
      charAt_skip_field, charAt_skip_field, charAt_last_blank]
  have hpc := crond_parse_command_of_eq (singletonLine m h d mo w) _ ' '
    (strL "/bin/x") hpos hprevS hD5
  have hsf : crond_split_find ' ' true (strL "/bin/x") = none := by decide
  rw [hsf] at hpc
  have ht : (strL "/bin/x").takeWhile (fun c => !(c == NUL)) =
      strL "/bin/x" := by decide
  rw [ht] at hpc
  rw [hpc]

/-- C4 (amended).  For a job parsed from a five-field line with
singleton fields `m h d mo w` (in their accepted input ranges) and any
broken-down time whose fields lie in the ranges the code's 1-based
month/day interpretation addresses in-bounds (`0 ≤ tm_min < 60`,
`0 ≤ tm_hour < 24`, `1 ≤ tm_mday ≤ 31`, `1 ≤ tm_mon ≤ 12`,
`0 ≤ tm_wday < 7`), `crond_job_should_run` returns true exactly when the
time equals the singletons in all five fields.  (For `tm_mon = 0` —
January under the POSIX convention — the month lookup escapes the month
array and can read a day bit instead; see `c4_counterexample`.) -/
theorem c4_singleton_match (m h d mo w : Nat) (tm : CronTm)
    (hm : m < 60) (hh : h < 24) (hd1 : 1 ≤ d) (hd2 : d ≤ 31)
    (hmo1 : 1 ≤ mo) (hmo2 : mo ≤ 12) (hw : w < 7)
    (tmin1 : 0 ≤ tm.tm_min) (tmin2 : tm.tm_min < 60)
    (thour1 : 0 ≤ tm.tm_hour) (thour2 : tm.tm_hour < 24)
    (tday1 : 1 ≤ tm.tm_mday) (tday2 : tm.tm_mday ≤ 31)
    (tmon1 : 1 ≤ tm.tm_mon) (tmon2 : tm.tm_mon ≤ 12)
    (twday1 : 0 ≤ tm.tm_wday) (twday2 : tm.tm_wday < 7) :
    (crond_crontab_parse_line (singletonLine m h d mo w)).map
        (fun j => crond_job_should_run j tm) =
      some (decide (tm.tm_min = m ∧ tm.tm_hour = h ∧ tm.tm_mday = d ∧
        tm.tm_mon = mo ∧ tm.tm_wday = w)) := by
  rw [crond_parse_line_singleton m h d mo w hm hh hd1 hd2 hmo1 hmo2 hw]
  simp only [Option.map_some']
  congr 1
  simp only [crond_job_should_run, crond_minute_index, crond_hour_index,
    crond_day_index, crond_month_index, crond_weekday_index,
    crond_set_field_range, minuteBase, hourBase, dayBase, monthBase,
    weekdayBase, Finset.mem_union, Finset.mem_Icc]
  rw [Bool.eq_iff_iff]
  simp only [Bool.and_eq_true, decide_eq_true_eq]
  omega

/-- Closed witness for `c4_singleton_match`. -/
theorem c4_singleton_match_witness :
    (crond_crontab_parse_line (singletonLine 2 3 4 5 6)).map
        (fun j => crond_job_should_run j ⟨2, 3, 4, 5, 6⟩) =
      some (decide ((2 : ℤ) = (2 : Nat) ∧ (3 : ℤ) = (3 : Nat) ∧
        (4 : ℤ) = (4 : Nat) ∧ (5 : ℤ) = (5 : Nat) ∧ (6 : ℤ) = (6 : Nat))) :=
  c4_singleton_match 2 3 4 5 6 ⟨2, 3, 4, 5, 6⟩
    (by decide) (by decide) (by decide) (by decide) (by decide) (by decide)
    (by decide) (by decide) (by decide) (by decide) (by decide) (by decide)
    (by decide) (by decide) (by decide) (by decide) (by decide)

/-- Counterexample to C4 as stated: the job parsed from
`2 3 31 5 6 /bin/x` has month singleton 5, and the broken-down local
time `min 2, hour 3, mday 31, mon 0 (January), wday 6` differs from the
job in the month field — yet `crond_job_should_run` returns true: with
`tm_mon = 0` the month lookup `month[tm_mon - 1]` reads `month[-1]`,
which under the declared layout is `day[30]`, a bit the day singleton 31
set. -/
theorem c4_counterexample :
    (crond_crontab_parse_line (strL "2 3 31 5 6 /bin/x")).map
        (fun j => crond_job_should_run j ⟨2, 3, 31, 0, 6⟩) = some true ∧
    (⟨2, 3, 31, 0, 6⟩ : CronTm).tm_mon ≠ (5 : Nat) := by
  refine ⟨by decide, by decide⟩

theorem isPrefixOf_append_self (l t : List Char) :
    l.isPrefixOf (l ++ t) = true := by
  induction l with
  | nil => simp [List.isPrefixOf]
  | cons c r ih => simp [List.isPrefixOf, ih]

theorem crond_parse_line_preset (tok cmd : List Char) (W : Finset ℤ)
    (tlen : Nat) (hlen : tok.length = tlen)
    (htok : crond_preset_match (tok ++ ' ' :: cmd) = some (W, tlen)) :
    crond_crontab_parse_line ('@' :: (tok ++ ' ' :: cmd)) =
      some ⟨(crond_crontab_parse_command (' ' :: cmd)
               (1 + blanksCount cmd)).1,
            (crond_crontab_parse_command (' ' :: cmd)
               (1 + blanksCount cmd)).2, W⟩ := by
  have hb : blanksCount ('@' :: (tok ++ ' ' :: cmd)) = 0 :=
    blanksCount_cons_nonblank '@' _ (by decide)
  have hdropT : (tok ++ ' ' :: cmd).drop tlen = ' ' :: cmd := by
    rw [← hlen, drop_append_len]
  have hbt : blanksCount ((tok ++ ' ' :: cmd).drop tlen) =
      blanksCount cmd + 1 := by
    rw [hdropT]
    exact blanksCount_cons_blank ' ' cmd (by decide)
  have hpc : crond_crontab_parse_command ('@' :: (tok ++ ' ' :: cmd))
      (0 + 1 + tlen + (blanksCount cmd + 1)) =
      crond_crontab_parse_command (' ' :: cmd) (1 + blanksCount cmd) := by
    have hpos1 : 0 < 0 + 1 + tlen + (blanksCount cmd + 1) := by omega
    have hprev1 : charAt ('@' :: (tok ++ ' ' :: cmd))
        (0 + 1 + tlen + (blanksCount cmd + 1) - 1) =
        charAt (' ' :: cmd) (blanksCount cmd) := by
      have e : 0 + 1 + tlen + (blanksCount cmd + 1) - 1 =
          (tlen + blanksCount cmd) + 1 := by omega
      rw [e, charAt_cons_succ, ← hlen, ← Nat.add_zero (tok.length + blanksCount cmd)]
      have e2 : tok.length + blanksCount cmd + 0 =
          tok.length + (blanksCount cmd + 0) := by omega
      rw [e2, charAt_append_right]
      have e3 : blanksCount cmd + 0 = blanksCount cmd := by omega
      rw [e3]
    have hs1 : ('@' :: (tok ++ ' ' :: cmd)).drop
        (0 + 1 + tlen + (blanksCount cmd + 1)) = cmd.drop (blanksCount cmd) := by
      have e : 0 + 1 + tlen + (blanksCount cmd + 1) =
          (tlen + (blanksCount cmd + 1)) + 1 := by omega
      rw [e, List.drop_succ_cons, ← hlen, drop_append_right,
        List.drop_succ_cons]
    have hpos2 : 0 < 1 + blanksCount cmd := by omega
    have hprev2 : charAt (' ' :: cmd) (1 + blanksCount cmd - 1) =
        charAt (' ' :: cmd) (blanksCount cmd) := by
      have e : 1 + blanksCount cmd - 1 = blanksCount cmd := by omega
      rw [e]
    have hs2 : (' ' :: cmd).drop (1 + blanksCount cmd) =
        cmd.drop (blanksCount cmd) := by
      have e : 1 + blanksCount cmd = blanksCount cmd + 1 := by omega
      rw [e, List.drop_succ_cons]
    rw [crond_parse_command_of_eq ('@' :: (tok ++ ' ' :: cmd)) _ _ _ hpos1
      hprev1 hs1]
    rw [crond_parse_command_of_eq (' ' :: cmd) _ _ _ hpos2 hprev2 hs2]
  have hc0 : charAt ('@' :: (tok ++ ' ' :: cmd)) 0 = '@' := rfl
  have hblank2 : blanksCount (('@' :: (tok ++ ' ' :: cmd)).drop
      (0 + 1 + tlen)) = blanksCount cmd + 1 := by
    have e : 0 + 1 + tlen = tlen + 1 := by omega
    rw [e, List.drop_succ_cons, hdropT]
    exact blanksCount_cons_blank ' ' cmd (by decide)
  have hdrop1 : ('@' :: (tok ++ ' ' :: cmd)).drop (0 + 1) =
      tok ++ ' ' :: cmd := by
    rw [Nat.zero_add, List.drop_succ_cons, List.drop_zero]
  simp only [crond_crontab_parse_line, hb, hc0, hdrop1, htok, hblank2, hpc]
  simp
  decide


theorem crond_parse_field_int_zero (rest : List Char) (base : ℤ) (flen : Nat)
    (hflen : 0 < flen) :
    crond_parse_field_int ('0' :: ' ' :: rest) base flen 0 =
      some (crond_set_field_range base 0 0, 2 + blanksCount rest) := by
  have h := crond_parse_field_int_single 0 0 flen base rest (by decide)
    (by rw [subSize_zero]; omega)
  rw [subSize_zero] at h
  simpa [show digitsOf 0 = ['0'] from rfl] using h

theorem crond_parse_field_int_one (rest : List Char) (base : ℤ) (flen : Nat)
    (hflen : 0 < flen) :
    crond_parse_field_int ('1' :: ' ' :: rest) base flen 1 =
      some (crond_set_field_range base 0 0, 2 + blanksCount rest) := by
  have h := crond_parse_field_int_single 1 1 flen base rest (by decide)
    (by rw [subSize_one 1 (by omega)]; omega)
  rw [subSize_one 1 (by omega)] at h
  simpa [show digitsOf 1 = ['1'] from rfl] using h

theorem crond_parse_line_expansion (c1 c2 c3 c4 c5 : Char) (cmd : List Char)
    (w1 w2 w3 w4 w5 : Finset ℤ)
    (hd1 : isdigit c1 = true)
    (hb1 : isblank c1 = false) (hb2 : isblank c2 = false)
    (hb3 : isblank c3 = false) (hb4 : isblank c4 = false)
    (hb5 : isblank c5 = false)
    (h1 : ∀ rest, crond_parse_field_int (c1 :: ' ' :: rest) minuteBase 60 0 =
      some (w1, 2 + blanksCount rest))
    (h2 : ∀ rest, crond_parse_field_int (c2 :: ' ' :: rest) hourBase 24 0 =
      some (w2, 2 + blanksCount rest))
    (h3 : ∀ rest, crond_parse_field_int (c3 :: ' ' :: rest) dayBase 31 1 =
      some (w3, 2 + blanksCount rest))
    (h4 : ∀ rest, crond_parse_field_int (c4 :: ' ' :: rest) monthBase 12 1 =
      some (w4, 2 + blanksCount rest))
    (h5 : ∀ rest, crond_parse_field_int (c5 :: ' ' :: rest) weekdayBase 7 0 =
      some (w5, 2 + blanksCount rest)) :
    crond_crontab_parse_line (c1 :: ' ' :: (c2 :: ' ' :: (c3 :: ' ' ::
        (c4 :: ' ' :: (c5 :: ' ' :: cmd))))) =
      some ⟨(crond_crontab_parse_command (' ' :: cmd)
               (1 + blanksCount cmd)).1,
            (crond_crontab_parse_command (' ' :: cmd)
               (1 + blanksCount cmd)).2,
            w1 ∪ w2 ∪ w3 ∪ w4 ∪ w5⟩ := by
  have hf1 : crond_parse_field_int (c1 :: ' ' :: (c2 :: ' ' :: (c3 :: ' ' ::
      (c4 :: ' ' :: (c5 :: ' ' :: cmd))))) minuteBase 60 0 = some (w1, 2) := by
    rw [h1, blanksCount_cons_nonblank c2 _ hb2]
  have hf2 : crond_parse_field_int (c2 :: ' ' :: (c3 :: ' ' ::
      (c4 :: ' ' :: (c5 :: ' ' :: cmd)))) hourBase 24 0 = some (w2, 2) := by
    rw [h2, blanksCount_cons_nonblank c3 _ hb3]
  have hf3 : crond_parse_field_int (c3 :: ' ' ::
      (c4 :: ' ' :: (c5 :: ' ' :: cmd))) dayBase 31 1 = some (w3, 2) := by
    rw [h3, blanksCount_cons_nonblank c4 _ hb4]
  have hf4 : crond_parse_field_int (c4 :: ' ' :: (c5 :: ' ' :: cmd))
      monthBase 12 1 = some (w4, 2) := by
    rw [h4, blanksCount_cons_nonblank c5 _ hb5]
  have hf5 : crond_parse_field_int (c5 :: ' ' :: cmd) weekdayBase 7 0 =
      some (w5, 2 + blanksCount cmd) := h5 cmd
  have hs5 : (c5 :: ' ' :: cmd).drop (2 + blanksCount cmd) =
      cmd.drop (blanksCount cmd) := by
    have e : 2 + blanksCount cmd = blanksCount cmd + 1 + 1 := by omega
    rw [e, List.drop_succ_cons, List.drop_succ_cons]
  have hbl : blanksCount (c1 :: ' ' :: (c2 :: ' ' :: (c3 :: ' ' ::
      (c4 :: ' ' :: (c5 :: ' ' :: cmd))))) = 0 :=
    blanksCount_cons_nonblank c1 _ hb1
  have hmain := crond_parse_line_five
    (c1 :: ' ' :: (c2 :: ' ' :: (c3 :: ' ' :: (c4 :: ' ' ::
      (c5 :: ' ' :: cmd)))))
    (c2 :: ' ' :: (c3 :: ' ' :: (c4 :: ' ' :: (c5 :: ' ' :: cmd))))
    (c3 :: ' ' :: (c4 :: ' ' :: (c5 :: ' ' :: cmd)))
    (c4 :: ' ' :: (c5 :: ' ' :: cmd))
    (c5 :: ' ' :: cmd)
    (cmd.drop (blanksCount cmd))
    w1 w2 w3 w4 w5 2 2 2 2 (2 + blanksCount cmd)
    hbl hd1 hf1 rfl hf2 rfl hf3 rfl hf4 rfl hf5 hs5
  rw [hmain]
  have hb0 : blanksCount (cmd.drop (blanksCount cmd)) = 0 :=
    blanksCount_drop_self cmd
  rw [hb0]
  have hpc : crond_crontab_parse_command
      (c1 :: ' ' :: (c2 :: ' ' :: (c3 :: ' ' :: (c4 :: ' ' ::
        (c5 :: ' ' :: cmd)))))
      (2 + 2 + 2 + 2 + (2 + blanksCount cmd) + 0) =
      crond_crontab_parse_command (' ' :: cmd) (1 + blanksCount cmd) := by
    have hpos1 : 0 < 2 + 2 + 2 + 2 + (2 + blanksCount cmd) + 0 := by omega
    have hprev1 : charAt
        (c1 :: ' ' :: (c2 :: ' ' :: (c3 :: ' ' :: (c4 :: ' ' ::
          (c5 :: ' ' :: cmd)))))
        (2 + 2 + 2 + 2 + (2 + blanksCount cmd) + 0 - 1) =
        charAt (' ' :: cmd) (blanksCount cmd) := by
      show charAt ([c1, ' ', c2, ' ', c3, ' ', c4, ' ', c5] ++ (' ' :: cmd))
        (2 + 2 + 2 + 2 + (2 + blanksCount cmd) + 0 - 1) =
        charAt (' ' :: cmd) (blanksCount cmd)
      have e : 2 + 2 + 2 + 2 + (2 + blanksCount cmd) + 0 - 1 =
          [c1, ' ', c2, ' ', c3, ' ', c4, ' ', c5].length +
            blanksCount cmd := by
        simp
        omega
      rw [e, charAt_append_right]
    have hs1x : (c1 :: ' ' :: (c2 :: ' ' :: (c3 :: ' ' :: (c4 :: ' ' ::
        (c5 :: ' ' :: cmd))))).drop
        (2 + 2 + 2 + 2 + (2 + blanksCount cmd) + 0) =
        cmd.drop (blanksCount cmd) := by
      show ([c1, ' ', c2, ' ', c3, ' ', c4, ' ', c5, ' '] ++ cmd).drop
        (2 + 2 + 2 + 2 + (2 + blanksCount cmd) + 0) =
        cmd.drop (blanksCount cmd)
      have e : 2 + 2 + 2 + 2 + (2 + blanksCount cmd) + 0 =
          [c1, ' ', c2, ' ', c3, ' ', c4, ' ', c5, ' '].length +
            blanksCount cmd := by
        simp
        omega
      rw [e, drop_append_right]
    have hpos2 : 0 < 1 + blanksCount cmd := by omega
    have hprev2 : charAt (' ' :: cmd) (1 + blanksCount cmd - 1) =
        charAt (' ' :: cmd) (blanksCount cmd) := by
      have e : 1 + blanksCount cmd - 1 = blanksCount cmd := by omega
      rw [e]
    have hs2x : (' ' :: cmd).drop (1 + blanksCount cmd) =
        cmd.drop (blanksCount cmd) := by
      have e : 1 + blanksCount cmd = blanksCount cmd + 1 := by omega
      rw [e, List.drop_succ_cons]
    rw [crond_parse_command_of_eq _ _ _ _ hpos1 hprev1 hs1x]
    rw [crond_parse_command_of_eq (' ' :: cmd) _ _ _ hpos2 hprev2 hs2x]
  rw [hpc]

/-- C5.  For every preset token and every command text, parsing the
preset line produces a job descriptor identical bit-for-bit — all five
bit-sets (including the out-of-bounds positions their fills cover),
command, and stdin payload — to the one produced by parsing the preset's
five-field expansion followed by the same text. -/
theorem c5_preset_equivalence (cmd : List Char) :
    crond_crontab_parse_line ('@' :: (strL "yearly" ++ ' ' :: cmd)) =
      crond_crontab_parse_line (strL "0 0 1 1 *" ++ ' ' :: cmd) ∧
    crond_crontab_parse_line ('@' :: (strL "annually" ++ ' ' :: cmd)) =
      crond_crontab_parse_line (strL "0 0 1 1 *" ++ ' ' :: cmd) ∧
    crond_crontab_parse_line ('@' :: (strL "monthly" ++ ' ' :: cmd)) =
      crond_crontab_parse_line (strL "0 0 1 * *" ++ ' ' :: cmd) ∧
    crond_crontab_parse_line ('@' :: (strL "weekly" ++ ' ' :: cmd)) =
      crond_crontab_parse_line (strL "0 0 * * 0" ++ ' ' :: cmd) ∧
    crond_crontab_parse_line ('@' :: (strL "daily" ++ ' ' :: cmd)) =
      crond_crontab_parse_line (strL "0 0 * * *" ++ ' ' :: cmd) ∧
    crond_crontab_parse_line ('@' :: (strL "midnight" ++ ' ' :: cmd)) =
      crond_crontab_parse_line (strL "0 0 * * *" ++ ' ' :: cmd) ∧
    crond_crontab_parse_line ('@' :: (strL "hourly" ++ ' ' :: cmd)) =
      crond_crontab_parse_line (strL "0 * * * *" ++ ' ' :: cmd) := by
  have hzero : ∀ (base : ℤ) (flen : Nat), 0 < flen →
      ∀ rest, crond_parse_field_int ('0' :: ' ' :: rest) base flen 0 =
        some (crond_set_field_range base 0 0, 2 + blanksCount rest) :=
    fun base flen hf rest => crond_parse_field_int_zero rest base flen hf
  have hone : ∀ (base : ℤ) (flen : Nat), 0 < flen →
      ∀ rest, crond_parse_field_int ('1' :: ' ' :: rest) base flen 1 =
        some (crond_set_field_range base 0 0, 2 + blanksCount rest) :=
    fun base flen hf rest => crond_parse_field_int_one rest base flen hf
  have hstar : ∀ (base : ℤ) (flen off : Nat),
      ∀ rest, crond_parse_field_int ('*' :: ' ' :: rest) base flen off =
        some (crond_set_field_range base 0 flen, 2 + blanksCount rest) :=
    fun base flen off rest => crond_parse_field_int_star rest base flen off
  refine ⟨?_, ?_, ?_, ?_, ?_, ?_, ?_⟩
  · rw [crond_parse_line_preset (strL "yearly") cmd crond_preset_yearly 6 rfl
      (by
      simp +decide [crond_preset_match, isPrefixOf_append_self])]
    rw [show strL "0 0 1 1 *" ++ ' ' :: cmd = '0' :: ' ' :: ('0' :: ' ' ::
      ('1' :: ' ' :: ('1' :: ' ' :: ('*' :: ' ' :: cmd)))) from rfl]
    rw [crond_parse_line_expansion '0' '0' '1' '1' '*' cmd _ _ _ _ _
      (by decide) (by decide) (by decide) (by decide) (by decide) (by decide)
      (hzero minuteBase 60 (by omega)) (hzero hourBase 24 (by omega))
      (hone dayBase 31 (by omega)) (hone monthBase 12 (by omega))
      (hstar weekdayBase 7 0)]
    rw [show crond_preset_yearly = crond_set_field_range minuteBase 0 0 ∪
      crond_set_field_range hourBase 0 0 ∪ crond_set_field_range dayBase 0 0 ∪
      crond_set_field_range monthBase 0 0 ∪
      crond_set_field_range weekdayBase 0 7 from by decide]
  · rw [crond_parse_line_preset (strL "annually") cmd crond_preset_yearly 8 rfl
      (by
      have hn0 : ¬ strL "yearly" <+: strL "annually" ++ ' ' :: cmd := by
        rintro ⟨t, ht⟩
        simp +decide [strL] at ht
      simp +decide [crond_preset_match, isPrefixOf_append_self, hn0])]
    rw [show strL "0 0 1 1 *" ++ ' ' :: cmd = '0' :: ' ' :: ('0' :: ' ' ::
      ('1' :: ' ' :: ('1' :: ' ' :: ('*' :: ' ' :: cmd)))) from rfl]
    rw [crond_parse_line_expansion '0' '0' '1' '1' '*' cmd _ _ _ _ _
      (by decide) (by decide) (by decide) (by decide) (by decide) (by decide)
      (hzero minuteBase 60 (by omega)) (hzero hourBase 24 (by omega))
      (hone dayBase 31 (by omega)) (hone monthBase 12 (by omega))
      (hstar weekdayBase 7 0)]
    rw [show crond_preset_yearly = crond_set_field_range minuteBase 0 0 ∪
      crond_set_field_range hourBase 0 0 ∪ crond_set_field_range dayBase 0 0 ∪
      crond_set_field_range monthBase 0 0 ∪
      crond_set_field_range weekdayBase 0 7 from by decide]
  · rw [crond_parse_line_preset (strL "monthly") cmd crond_preset_monthly 7 rfl
      (by
      have hn0 : ¬ strL "yearly" <+: strL "monthly" ++ ' ' :: cmd := by
        rintro ⟨t, ht⟩
        simp +decide [strL] at ht
      have hn1 : ¬ strL "annually" <+: strL "monthly" ++ ' ' :: cmd := by
        rintro ⟨t, ht⟩
        simp +decide [strL] at ht
      simp +decide [crond_preset_match, isPrefixOf_append_self, hn0, hn1])]
    rw [show strL "0 0 1 * *" ++ ' ' :: cmd = '0' :: ' ' :: ('0' :: ' ' ::
      ('1' :: ' ' :: ('*' :: ' ' :: ('*' :: ' ' :: cmd)))) from rfl]
    rw [crond_parse_line_expansion '0' '0' '1' '*' '*' cmd _ _ _ _ _
      (by decide) (by decide) (by decide) (by decide) (by decide) (by decide)
      (hzero minuteBase 60 (by omega)) (hzero hourBase 24 (by omega))
      (hone dayBase 31 (by omega)) (hstar monthBase 12 1)
      (hstar weekdayBase 7 0)]
    rw [show crond_preset_monthly = crond_set_field_range minuteBase 0 0 ∪
      crond_set_field_range hourBase 0 0 ∪ crond_set_field_range dayBase 0 0 ∪
      crond_set_field_range monthBase 0 12 ∪
      crond_set_field_range weekdayBase 0 7 from by decide]
  · rw [crond_parse_line_preset (strL "weekly") cmd crond_preset_weekly 6 rfl
      (by
      have hn0 : ¬ strL "yearly" <+: strL "weekly" ++ ' ' :: cmd := by
        rintro ⟨t, ht⟩
        simp +decide [strL] at ht
      have hn1 : ¬ strL "annually" <+: strL "weekly" ++ ' ' :: cmd := by
        rintro ⟨t, ht⟩
        simp +decide [strL] at ht
      have hn2 : ¬ strL "monthly" <+: strL "weekly" ++ ' ' :: cmd := by
        rintro ⟨t, ht⟩
        simp +decide [strL] at ht
      simp +decide [crond_preset_match, isPrefixOf_append_self, hn0, hn1, hn2])]
    rw [show strL "0 0 * * 0" ++ ' ' :: cmd = '0' :: ' ' :: ('0' :: ' ' ::
      ('*' :: ' ' :: ('*' :: ' ' :: ('0' :: ' ' :: cmd)))) from rfl]
    rw [crond_parse_line_expansion '0' '0' '*' '*' '0' cmd _ _ _ _ _
      (by decide) (by decide) (by decide) (by decide) (by decide) (by decide)
      (hzero minuteBase 60 (by omega)) (hzero hourBase 24 (by omega))
      (hstar dayBase 31 1) (hstar monthBase 12 1)
      (hzero weekdayBase 7 (by omega))]
    rw [show crond_preset_weekly = crond_set_field_range minuteBase 0 0 ∪
      crond_set_field_range hourBase 0 0 ∪ crond_set_field_range dayBase 0 31 ∪
      crond_set_field_range monthBase 0 12 ∪
      crond_set_field_range weekdayBase 0 0 from by decide]
  · rw [crond_parse_line_preset (strL "daily") cmd crond_preset_daily 5 rfl
      (by
      have hn0 : ¬ strL "yearly" <+: strL "daily" ++ ' ' :: cmd := by
        rintro ⟨t, ht⟩
        simp +decide [strL] at ht
      have hn1 : ¬ strL "annually" <+: strL "daily" ++ ' ' :: cmd := by
        rintro ⟨t, ht⟩
        simp +decide [strL] at ht
      have hn2 : ¬ strL "monthly" <+: strL "daily" ++ ' ' :: cmd := by
        rintro ⟨t, ht⟩
        simp +decide [strL] at ht
      have hn3 : ¬ strL "weekly" <+: strL "daily" ++ ' ' :: cmd := by
        rintro ⟨t, ht⟩
        simp +decide [strL] at ht
      simp +decide [crond_preset_match, isPrefixOf_append_self, hn0, hn1, hn2, hn3])]
    rw [show strL "0 0 * * *" ++ ' ' :: cmd = '0' :: ' ' :: ('0' :: ' ' ::
      ('*' :: ' ' :: ('*' :: ' ' :: ('*' :: ' ' :: cmd)))) from rfl]
    rw [crond_parse_line_expansion '0' '0' '*' '*' '*' cmd _ _ _ _ _
      (by decide) (by decide) (by decide) (by decide) (by decide) (by decide)
      (hzero minuteBase 60 (by omega)) (hzero hourBase 24 (by omega))
      (hstar dayBase 31 1) (hstar monthBase 12 1)
      (hstar weekdayBase 7 0)]
    rw [show crond_preset_daily = crond_set_field_range minuteBase 0 0 ∪
      crond_set_field_range hourBase 0 0 ∪ crond_set_field_range dayBase 0 31 ∪
      crond_set_field_range monthBase 0 12 ∪
      crond_set_field_range weekdayBase 0 7 from by decide]
  · rw [crond_parse_line_preset (strL "midnight") cmd crond_preset_daily 8 rfl
      (by
      have hn0 : ¬ strL "yearly" <+: strL "midnight" ++ ' ' :: cmd := by
        rintro ⟨t, ht⟩
        simp +decide [strL] at ht
      have hn1 : ¬ strL "annually" <+: strL "midnight" ++ ' ' :: cmd := by
        rintro ⟨t, ht⟩
        simp +decide [strL] at ht
      have hn2 : ¬ strL "monthly" <+: strL "midnight" ++ ' ' :: cmd := by
        rintro ⟨t, ht⟩
        simp +decide [strL] at ht
      have hn3 : ¬ strL "weekly" <+: strL "midnight" ++ ' ' :: cmd := by
        rintro ⟨t, ht⟩
        simp +decide [strL] at ht
      have hn4 : ¬ strL "daily" <+: strL "midnight" ++ ' ' :: cmd := by
        rintro ⟨t, ht⟩
        simp +decide [strL] at ht
      simp +decide [crond_preset_match, isPrefixOf_append_self, hn0, hn1, hn2, hn3, hn4])]
    rw [show strL "0 0 * * *" ++ ' ' :: cmd = '0' :: ' ' :: ('0' :: ' ' ::
      ('*' :: ' ' :: ('*' :: ' ' :: ('*' :: ' ' :: cmd)))) from rfl]
    rw [crond_parse_line_expansion '0' '0' '*' '*' '*' cmd _ _ _ _ _
      (by decide) (by decide) (by decide) (by decide) (by decide) (by decide)
      (hzero minuteBase 60 (by omega)) (hzero hourBase 24 (by omega))
      (hstar dayBase 31 1) (hstar monthBase 12 1)
      (hstar weekdayBase 7 0)]
    rw [show crond_preset_daily = crond_set_field_range minuteBase 0 0 ∪
      crond_set_field_range hourBase 0 0 ∪ crond_set_field_range dayBase 0 31 ∪
      crond_set_field_range monthBase 0 12 ∪
      crond_set_field_range weekdayBase 0 7 from by decide]
  · rw [crond_parse_line_preset (strL "hourly") cmd crond_preset_hourly 6 rfl
      (by
      have hn0 : ¬ strL "yearly" <+: strL "hourly" ++ ' ' :: cmd := by
        rintro ⟨t, ht⟩
        simp +decide [strL] at ht
      have hn1 : ¬ strL "annually" <+: strL "hourly" ++ ' ' :: cmd := by
        rintro ⟨t, ht⟩
        simp +decide [strL] at ht
      have hn2 : ¬ strL "monthly" <+: strL "hourly" ++ ' ' :: cmd := by
        rintro ⟨t, ht⟩
        simp +decide [strL] at ht
      have hn3 : ¬ strL "weekly" <+: strL "hourly" ++ ' ' :: cmd := by
        rintro ⟨t, ht⟩
        simp +decide [strL] at ht
      have hn4 : ¬ strL "daily" <+: strL "hourly" ++ ' ' :: cmd := by
        rintro ⟨t, ht⟩
        simp +decide [strL] at ht
      have hn5 : ¬ strL "midnight" <+: strL "hourly" ++ ' ' :: cmd := by
        rintro ⟨t, ht⟩
        simp +decide [strL] at ht
      simp +decide [crond_preset_match, isPrefixOf_append_self, hn0, hn1, hn2, hn3, hn4, hn5])]
    rw [show strL "0 * * * *" ++ ' ' :: cmd = '0' :: ' ' :: ('*' :: ' ' ::
      ('*' :: ' ' :: ('*' :: ' ' :: ('*' :: ' ' :: cmd)))) from rfl]
    rw [crond_parse_line_expansion '0' '*' '*' '*' '*' cmd _ _ _ _ _
      (by decide) (by decide) (by decide) (by decide) (by decide) (by decide)
      (hzero minuteBase 60 (by omega)) (hstar hourBase 24 0)
      (hstar dayBase 31 1) (hstar monthBase 12 1)
      (hstar weekdayBase 7 0)]
    rw [show crond_preset_hourly = crond_set_field_range minuteBase 0 0 ∪
      crond_set_field_range hourBase 0 24 ∪ crond_set_field_range dayBase 0 31 ∪
      crond_set_field_range monthBase 0 12 ∪
      crond_set_field_range weekdayBase 0 7 from by decide]

/-! ## C6: the crontab change detector -/

/-- C6 (amended).  The change detector: when stat succeeds it reports
changed exactly when the file's timestamp differs from the stored value
and always leaves the new value stored, so the first post-start
observation of an existing file (stored value all-zero) reports changed
whenever the file's timestamp is not itself all-zero; when stat fails
with `ENOENT` it reports changed exactly when the stored value is
non-zero and clears it; on any other stat error it sets the daemon's
failure exit status and reports unchanged with the stored value kept. -/
theorem c6_change_detector (st : ChangeSt) (t : Timespec) :
    ((crond_crontab_has_changed st (.ok t)).1 =
        decide (st.mtime_crontab ≠ t) ∧
      (crond_crontab_has_changed st (.ok t)).2.mtime_crontab = t ∧
      (crond_crontab_has_changed st (.ok t)).2.status_code = st.status_code) ∧
    (t ≠ ⟨0, 0⟩ →
      (crond_crontab_has_changed ⟨⟨0, 0⟩, st.status_code⟩ (.ok t)).1 = true) ∧
    ((crond_crontab_has_changed st .enoent).1 =
        decide (st.mtime_crontab.tv_sec ≠ 0 ∨ st.mtime_crontab.tv_nsec ≠ 0) ∧
      (crond_crontab_has_changed st .enoent).2.mtime_crontab = ⟨0, 0⟩ ∧
      (crond_crontab_has_changed st .enoent).2.status_code = st.status_code) ∧
    (crond_crontab_has_changed st .other =
      (false, { st with status_code := 1 })) := by
  refine ⟨⟨?_, ?_, ?_⟩, ?_, ⟨?_, ?_, ?_⟩, rfl⟩
  · by_cases h : st.mtime_crontab = t <;> simp [crond_crontab_has_changed, h]
  · by_cases h : st.mtime_crontab = t <;> simp [crond_crontab_has_changed, h]
  · by_cases h : st.mtime_crontab = t <;> simp [crond_crontab_has_changed, h]
  · intro h
    simp [crond_crontab_has_changed, Ne.symm h]
  · by_cases h : st.mtime_crontab.tv_sec ≠ 0 ∨ st.mtime_crontab.tv_nsec ≠ 0 <;>
      simp [crond_crontab_has_changed, h]
  · by_cases h : st.mtime_crontab.tv_sec ≠ 0 ∨ st.mtime_crontab.tv_nsec ≠ 0 <;>
      simp [crond_crontab_has_changed, h]
    · push_neg at h
      obtain ⟨h1, h2⟩ := h
      have he : st.mtime_crontab =
          ⟨st.mtime_crontab.tv_sec, st.mtime_crontab.tv_nsec⟩ := rfl
      rw [he, h1, h2]
  · by_cases h : st.mtime_crontab.tv_sec ≠ 0 ∨ st.mtime_crontab.tv_nsec ≠ 0 <;>
      simp [crond_crontab_has_changed, h]

/-- Closed witness for `c6_change_detector`. -/
theorem c6_change_detector_witness :
    ((crond_crontab_has_changed ⟨⟨0, 0⟩, 0⟩ (.ok ⟨7, 9⟩)).1 =
        decide ((⟨⟨0, 0⟩, 0⟩ : ChangeSt).mtime_crontab ≠ ⟨7, 9⟩) ∧
      (crond_crontab_has_changed ⟨⟨0, 0⟩, 0⟩ (.ok ⟨7, 9⟩)).2.mtime_crontab =
        ⟨7, 9⟩ ∧
      (crond_crontab_has_changed ⟨⟨0, 0⟩, 0⟩ (.ok ⟨7, 9⟩)).2.status_code = 0) ∧
    ((⟨7, 9⟩ : Timespec) ≠ ⟨0, 0⟩ →
      (crond_crontab_has_changed ⟨⟨0, 0⟩, 0⟩ (.ok ⟨7, 9⟩)).1 = true) ∧
    ((crond_crontab_has_changed ⟨⟨0, 0⟩, 0⟩ .enoent).1 =
        decide ((0 : ℤ) ≠ 0 ∨ (0 : ℤ) ≠ 0) ∧
      (crond_crontab_has_changed ⟨⟨0, 0⟩, 0⟩ .enoent).2.mtime_crontab =
        ⟨0, 0⟩ ∧
      (crond_crontab_has_changed ⟨⟨0, 0⟩, 0⟩ .enoent).2.status_code = 0) ∧
    (crond_crontab_has_changed ⟨⟨0, 0⟩, 0⟩ .other =
      (false, { (⟨⟨0, 0⟩, 0⟩ : ChangeSt) with status_code := 1 })) :=
  c6_change_detector ⟨⟨0, 0⟩, 0⟩ ⟨7, 9⟩

/-- Counterexample to C6 as stated: a schedule file whose modification
timestamp is itself all-zero ({sec 0, nsec 0}, settable with
`touch -d @0`) is observed for the first time after start — stored value
all-zero — and the detector reports UNCHANGED, because the memcmp finds
the timestamps byte-for-byte equal.  The claim's "the first post-start
observation of an existing file always reports changed" fails here. -/
theorem c6_counterexample :
    (crond_crontab_has_changed ⟨⟨0, 0⟩, 0⟩ (.ok ⟨0, 0⟩)).1 = false := by
  decide

/-! ## C7: append failure leaves the store unchanged -/

/-- C7.  Whenever the overflow-checked size computation
`(num_jobs + 1) * sizeof(struct crond_job)` reports wrap, or the
reallocation itself fails, `crond_job_append` reports failure and leaves
the store unchanged — same `job_list` contents and same `num_jobs`, no
partially-initialized job present — and the parse-line caller then frees
the would-be job instead of storing it, so the store is byte-identical
to what it was. -/
theorem c7_append_failure_unchanged (st : CrondStore) (job : CrondJob)
    (realloc_fails : Bool) (line : List Char)
    (hfail : (si_mul_size_t ((st.num_jobs + 1) % 2 ^ 64)
        sizeof_crond_job).2 = true ∨ realloc_fails = true) :
    crond_job_append st job realloc_fails = (false, { st with status_code := 1 }) ∧
    (crond_job_append st job realloc_fails).2.job_list = st.job_list ∧
    (crond_job_append st job realloc_fails).2.num_jobs = st.num_jobs ∧
    (crond_crontab_parse_line_append st line realloc_fails).job_list =
      st.job_list ∧
    (crond_crontab_parse_line_append st line realloc_fails).num_jobs =
      st.num_jobs := by
  have happ : crond_job_append st job realloc_fails =
      (false, { st with status_code := 1 }) := by
    rw [crond_job_append, if_pos hfail]
  have happ2 : ∀ j, crond_job_append st j realloc_fails =
      (false, { st with status_code := 1 }) := by
    intro j
    rw [crond_job_append, if_pos hfail]
  have hpl : crond_crontab_parse_line_append st line realloc_fails =
      st ∨ crond_crontab_parse_line_append st line realloc_fails =
      { st with status_code := 1 } := by
    rw [crond_crontab_parse_line_append]
    cases crond_crontab_parse_line line with
    | none => left; rfl
    | some j =>
      right
      show (crond_job_append st j realloc_fails).2 =
        { st with status_code := 1 }
      rw [happ2 j]
  refine ⟨happ, by rw [happ], by rw [happ], ?_, ?_⟩
  · cases hpl with
    | inl he => rw [he]
    | inr he => rw [he]
  · cases hpl with
    | inl he => rw [he]
    | inr he => rw [he]

/-- Closed witness for `c7_append_failure_unchanged`. -/
theorem c7_append_failure_unchanged_witness :
    crond_job_append ⟨[], 0, 0⟩ ⟨[], none, ∅⟩ true =
      (false, { (⟨[], 0, 0⟩ : CrondStore) with status_code := 1 }) ∧
    (crond_job_append ⟨[], 0, 0⟩ ⟨[], none, ∅⟩ true).2.job_list =
      ([] : List CrondJob) ∧
    (crond_job_append ⟨[], 0, 0⟩ ⟨[], none, ∅⟩ true).2.num_jobs = 0 ∧
    (crond_crontab_parse_line_append ⟨[], 0, 0⟩ (strL "@daily /bin/x")
      true).job_list = ([] : List CrondJob) ∧
    (crond_crontab_parse_line_append ⟨[], 0, 0⟩ (strL "@daily /bin/x")
      true).num_jobs = 0 :=
  c7_append_failure_unchanged ⟨[], 0, 0⟩ ⟨[], none, ∅⟩ true
    (strL "@daily /bin/x") (Or.inr rfl)

/-! ## C8: the month lookup at tm_mon = 0 -/

/-- C8.  For every job and every broken-down local time with
`tm_mon = 0` (January, the smallest valid POSIX month value),
`crond_job_should_run` indexes the month bit-set at `tm_mon - 1 = -1`,
outside the month array's valid index range `0..11`; under the declared
struct layout that flat position is `day[30]`, so the month conjunct of
the matcher actually reads the day bit-set's element 30. -/
theorem c8_month_index_oob (job : CrondJob) (tm : CronTm)
    (h : tm.tm_mon = 0) :
    tm.tm_mon - 1 = -1 ∧
    crond_month_index tm = dayBase + 30 ∧
    ¬(0 ≤ tm.tm_mon - 1 ∧ tm.tm_mon - 1 < 12) ∧
    decide (crond_month_index tm ∈ job.writes) =
      decide ((dayBase + 30) ∈ job.writes) := by
  have he : crond_month_index tm = dayBase + 30 := by
    rw [crond_month_index, h, monthBase, dayBase]
    norm_num
  refine ⟨by rw [h]; norm_num, he, by rw [h]; norm_num, by rw [he]⟩

/-- Closed witness for `c8_month_index_oob`. -/
theorem c8_month_index_oob_witness :
    (⟨0, 0, 1, 0, 0⟩ : CronTm).tm_mon - 1 = -1 ∧
    crond_month_index ⟨0, 0, 1, 0, 0⟩ = dayBase + 30 ∧
    ¬(0 ≤ (⟨0, 0, 1, 0, 0⟩ : CronTm).tm_mon - 1 ∧
      (⟨0, 0, 1, 0, 0⟩ : CronTm).tm_mon - 1 < 12) ∧
    decide (crond_month_index ⟨0, 0, 1, 0, 0⟩ ∈
      (⟨[], none, ∅⟩ : CrondJob).writes) =
      decide ((dayBase + 30) ∈ (⟨[], none, ∅⟩ : CrondJob).writes) :=
  c8_month_index_oob ⟨[], none, ∅⟩ ⟨0, 0, 1, 0, 0⟩ rfl

/-! ## C10: the reparse loop truncates an unterminated final line -/

theorem getlineChunks_ne_nil (s : List Char) (h : s ≠ []) :
    getlineChunks s ≠ [] := by
  induction s using getlineChunks.induct with
  | case1 => exact absurd rfl h
  | case2 r ih =>
    show ['\n'] :: getlineChunks r ≠ []
    simp
  | case3 c r hc heq ih =>
    rw [getlineChunks.eq_3 c r hc, heq]
    simp
  | case4 c r hc l ls heq ih =>
    rw [getlineChunks.eq_3 c r hc, heq]
    simp

theorem getlineChunks_no_newline (l : List Char) (h1 : '\n' ∉ l)
    (h2 : l ≠ []) : getlineChunks l = [l] := by
  induction l using getlineChunks.induct with
  | case1 => exact absurd rfl h2
  | case2 r ih => simp at h1
  | case3 c r hc heq ih =>
    have hr : r = [] := by
      by_contra hcon
      exact getlineChunks_ne_nil r hcon heq
    subst hr
    rw [getlineChunks.eq_3 c [] hc]
    rfl
  | case4 c r hc l ls heq ih =>
    simp only [List.mem_cons, not_or] at h1
    have hr : r ≠ [] := by
      intro hcon
      subst hcon
      simp [getlineChunks] at heq
    have hih := ih h1.2 hr
    rw [heq] at hih
    injection hih with he1 he2
    rw [getlineChunks.eq_3 c r hc, heq, he1, he2]

theorem getlineChunks_append_last (s t : List Char) (h1 : '\n' ∉ t)
    (h2 : t ≠ []) :
    getlineChunks (s ++ '\n' :: t) =
      getlineChunks (s ++ ['\n']) ++ [t] := by
  induction s with
  | nil =>
    show getlineChunks ('\n' :: t) = getlineChunks ['\n'] ++ [t]
    rw [show getlineChunks ('\n' :: t) = ['\n'] :: getlineChunks t from rfl]
    rw [getlineChunks_no_newline t h1 h2]
    rfl
  | cons c s ih =>
    by_cases hc : c = '\n'
    · subst hc
      rw [List.cons_append, List.cons_append]
      rw [show getlineChunks ('\n' :: (s ++ '\n' :: t)) =
        ['\n'] :: getlineChunks (s ++ '\n' :: t) from rfl]
      rw [show getlineChunks ('\n' :: (s ++ ['\n'])) =
        ['\n'] :: getlineChunks (s ++ ['\n']) from rfl]
      rw [ih, List.cons_append]
    · have hcf : c = '\n' → False := hc
      rw [List.cons_append, List.cons_append]
      have hne : s ++ ['\n'] ≠ [] := by simp
      cases hcl : getlineChunks (s ++ ['\n']) with
      | nil => exact absurd hcl (getlineChunks_ne_nil _ hne)
      | cons l ls =>
        rw [getlineChunks.eq_3 c (s ++ '\n' :: t) hcf,
          getlineChunks.eq_3 c (s ++ ['\n']) hcf, ih, hcl]
        rfl

/-- C10.  If the final line of the schedule file is not terminated by a
newline byte, the reparse loop still overwrites the byte at index
`read - 1` of the chunk `getline` returned with a NUL terminator, so the
line handed to `crond_crontab_parse_line` is the final line minus its
last character; for example the file `0 0 1 1 0 /bin/xy` (no trailing
newline) parses to a single job whose command is `/bin/x`. -/
theorem c10_final_line_truncated (pre last : List Char)
    (h1 : '\n' ∉ last) (h2 : last ≠ []) :
    crond_reparse_lines (pre ++ '\n' :: last) =
      crond_reparse_lines (pre ++ ['\n']) ++ [last.dropLast] ∧
    crond_reparse_lines last = [last.dropLast] ∧
    (crond_reparse_jobs (strL "0 0 1 1 0 /bin/xy")).map CrondJob.command =
      [strL "/bin/x"] := by
  refine ⟨?_, ?_, by decide⟩
  · rw [crond_reparse_lines, crond_reparse_lines,
      getlineChunks_append_last pre last h1 h2, List.map_append]
    rfl
  · rw [crond_reparse_lines, getlineChunks_no_newline last h1 h2]
    rfl

/-- Closed witness for `c10_final_line_truncated`. -/
theorem c10_final_line_truncated_witness :
    crond_reparse_lines (strL "a" ++ '\n' :: strL "bc") =
      crond_reparse_lines (strL "a" ++ ['\n']) ++ [(strL "bc").dropLast] ∧
    crond_reparse_lines (strL "bc") = [(strL "bc").dropLast] ∧
    (crond_reparse_jobs (strL "0 0 1 1 0 /bin/xy")).map CrondJob.command =
      [strL "/bin/x"] :=
  c10_final_line_truncated (strL "a") (strL "bc") (by decide) (by decide)
